import Mathlib

/-!
# I2C target register emulation (`samples/i2c_slave`)

A shallow embedding of `samples/i2c_slave/src/i2c_slave.c` and `i2c_slave.h`,
and of the register helpers of the controller demo `main.c`.

* The file-scope variables of `i2c_slave.c` (`registers`, `current_reg`,
  `reg_addr_received`, `measurement_in_progress`, `measurement_start_time_ms`,
  `unlock_time_ms`) become the fields of `State`; every C function becomes a
  function on `State`.
* `uint8_t` values are natural numbers; the operations that rely on the width
  of the type carry it explicitly (`bnot8`, `% 2 ^ 16`, `% 2 ^ 32`).
* `k_uptime_get()` (an `int64_t` number of milliseconds) and
  `sys_rand32_get()` (a `uint32_t`) are the environment: the value each call
  returns is an argument of the function that makes the call.
* `int64_t` arithmetic on timestamps is integer arithmetic; timestamps are
  uptimes, hence not negative, so the subtractions of the source do not
  overflow.
* Logging, the mutex and the sleeps have no effect on the state and are left
  out; each function runs atomically.
-/

namespace I2cSlave

/-! ## `i2c_slave.h` -/

abbrev REG_WHO_AM_I : Nat := 0x00
abbrev REG_CTRL1 : Nat := 0x01
abbrev REG_STATUS : Nat := 0x02
abbrev REG_TEMP_L : Nat := 0x03
abbrev REG_TEMP_H : Nat := 0x04
abbrev REG_HUMID_H : Nat := 0x05
abbrev REG_HUMID_L : Nat := 0x06
abbrev REG_CONFIG : Nat := 0x07
abbrev REG_PADDING : Nat := 0x08
abbrev REG_SESSION_CODE : Nat := 0x09
abbrev REG_UNLOCK : Nat := 0x0A
abbrev REG_LOCK_STATUS : Nat := 0x0B
abbrev REG_COUNT : Nat := 0x0C

abbrev STATUS_DATA_READY : Nat := 1 <<< 0
abbrev STATUS_LOCKED : Nat := 1 <<< 1

abbrev LOCKED : Nat := 0x01
abbrev UNLOCKED : Nat := 0x00

/-! ## `i2c_slave.c`: constants and state -/

abbrev MEASUREMENT_DELAY_MS : Int := 500
abbrev LOCK_TIMEOUT_MS : Int := 5000

/-- The file-scope variables of `i2c_slave.c`. -/
structure State where
  registers : List Nat
  current_reg : Nat
  reg_addr_received : Bool
  measurement_in_progress : Bool
  measurement_start_time_ms : Int
  unlock_time_ms : Int
deriving DecidableEq, Repr

/-- The initializer of `registers`. -/
def initial_registers : List Nat :=
  [ 0x42,          -- WHO_AM_I
    0x00,          -- CTRL1
    STATUS_LOCKED, -- STATUS: locked, no data-ready
    0xFF,          -- TEMP_L
    0xFF,          -- TEMP_H
    0xFF,          -- REG_HUMID_H in `i2c_slave.h` (commented HUMID_L in the source)
    0xFF,          -- REG_HUMID_L in `i2c_slave.h` (commented HUMID_H in the source)
    0x00,          -- CONFIG
    0x00,          -- padding
    0x00,          -- SESSION_CODE (filled at init)
    0x00,          -- UNLOCK
    LOCKED ]       -- LOCK_STATUS

/-- The read-only register mask `reg_readonly`. -/
def reg_readonly : List Bool :=
  [ true,  -- WHO_AM_I
    false, -- CTRL1
    true,  -- STATUS
    true,  -- TEMP_L
    true,  -- TEMP_H
    true,  -- REG_HUMID_H in `i2c_slave.h` (commented HUMID_L in the source)
    true,  -- REG_HUMID_L in `i2c_slave.h` (commented HUMID_H in the source)
    false, -- CONFIG
    false, -- padding
    true,  -- SESSION_CODE
    false, -- UNLOCK
    true ] -- LOCK_STATUS

/-- The state before `i2c_slave_init`: the static initializers (variables
without one are zero-initialised). -/
def initial_state : State :=
  { registers := initial_registers
    current_reg := 0
    reg_addr_received := false
    measurement_in_progress := false
    measurement_start_time_ms := 0
    unlock_time_ms := 0 }

/-- The read `registers[i]`. The index is total: outside the array it yields 0. -/
def rd (s : State) (i : Nat) : Nat := s.registers.getD i 0

/-- The assignment `registers[i] = v`. The index is total: outside the array
nothing is stored. -/
def wr (s : State) (i : Nat) (v : Nat) : State :=
  { s with registers := s.registers.set i v }

/-- The operand `~m` of a `uint8_t` compound assignment `x &= ~m`: the
complement of `m` within 8 bits. -/
def bnot8 (m : Nat) : Nat := 0xFF ^^^ m

/-- A state whose register file has `REG_COUNT` entries, each a byte. -/
def State.WF (s : State) : Prop :=
  s.registers.length = REG_COUNT ∧ ∀ x ∈ s.registers, x < 256

instance (s : State) : Decidable s.WF := by
  unfold State.WF; infer_instance

/-! ## `i2c_slave.c`: functions -/

/-- The function `lock_device`. -/
def lock_device (s : State) : State :=
  let s := wr s REG_LOCK_STATUS LOCKED
  -- Mark status as locked
  let s := wr s REG_STATUS (rd s REG_STATUS ||| STATUS_LOCKED)
  -- Clear data-ready bit
  let s := wr s REG_STATUS (rd s REG_STATUS &&& bnot8 STATUS_DATA_READY)
  -- Clear TEMP/HUMID when locked
  let s := wr s REG_TEMP_L 0xFF
  let s := wr s REG_TEMP_H 0xFF
  let s := wr s REG_HUMID_L 0xFF
  let s := wr s REG_HUMID_H 0xFF
  { s with measurement_in_progress := false }

/-- The function `unlock_device`; `now` is the value of `k_uptime_get()`. -/
def unlock_device (now : Int) (s : State) : State :=
  let s := wr s REG_LOCK_STATUS UNLOCKED
  -- Clear locked flag in STATUS
  let s := wr s REG_STATUS (rd s REG_STATUS &&& bnot8 STATUS_LOCKED)
  { s with unlock_time_ms := now }

/-- The timer callback `lock_timeout_handler`; `now` is the value of
`k_uptime_get()`. -/
def lock_timeout_handler (now : Int) (s : State) : State :=
  if rd s REG_LOCK_STATUS = UNLOCKED then
    if now - s.unlock_time_ms > LOCK_TIMEOUT_MS then lock_device s else s
  else s

/-- The function `start_measurement`; `now` is the value of `k_uptime_get()`. -/
def start_measurement (now : Int) (s : State) : State :=
  if rd s REG_LOCK_STATUS = LOCKED then s
  else if s.measurement_in_progress then s
  else
    let s := { s with measurement_in_progress := true, measurement_start_time_ms := now }
    -- clear data ready bit
    wr s REG_STATUS (rd s REG_STATUS &&& bnot8 STATUS_DATA_READY)

/-- The local `temp` of `complete_measurement`: `2000 + (r1 % 1000)` computed
in `uint32_t` and stored in a `uint16_t`. -/
def complete_measurement_temp (r1 : Nat) : Nat := (2000 + r1 % 1000) % 2 ^ 32 % 2 ^ 16

/-- The local `humid` of `complete_measurement`: `5000 + (r2 % 2000)` computed
in `uint32_t` and stored in a `uint16_t`. -/
def complete_measurement_humid (r2 : Nat) : Nat := (5000 + r2 % 2000) % 2 ^ 32 % 2 ^ 16

/-- The function `complete_measurement`; `r1` and `r2` are the values of its
first and second call of `sys_rand32_get()`. -/
def complete_measurement (r1 r2 : Nat) (s : State) : State :=
  let temp := complete_measurement_temp r1
  let humid := complete_measurement_humid r2
  let s := wr s REG_TEMP_L (temp &&& 0xFF)
  let s := wr s REG_TEMP_H ((temp >>> 8) &&& 0xFF)
  let s := wr s REG_HUMID_L (humid &&& 0xFF)
  let s := wr s REG_HUMID_H ((humid >>> 8) &&& 0xFF)
  let s := wr s REG_STATUS (rd s REG_STATUS ||| STATUS_DATA_READY)
  { s with measurement_in_progress := false }

/-- The callback `target_write_requested` (it returns 0). -/
def target_write_requested (s : State) : State :=
  { s with reg_addr_received := false }

/-- The callback `target_write_received` (it returns 0); `val` is the byte
received and `now` the value of `k_uptime_get()` in the call of
`start_measurement` or `unlock_device`, at most one of which is made. When
`current_reg` is outside `reg_readonly` the register counts as writable. -/
def target_write_received (now : Int) (val : Nat) (s : State) : State :=
  if !s.reg_addr_received then
    -- First byte is register address
    { s with current_reg := val % REG_COUNT, reg_addr_received := true }
  else
    -- Subsequent bytes are data
    let s :=
      if reg_readonly.getD s.current_reg false then s
      else
        let s := wr s s.current_reg val
        -- Special: CTRL1 start measurement (bit0)
        let s :=
          if s.current_reg = REG_CTRL1 ∧ val &&& 0x01 ≠ 0 then start_measurement now s
          else s
        -- Special: unlock logic
        if s.current_reg = REG_UNLOCK then
          if val = rd s REG_SESSION_CODE then unlock_device now s else s
        else s
    -- Auto-increment
    { s with current_reg := (s.current_reg + 1) % REG_COUNT }

/-- The callback `target_read_requested`: the state, and the byte stored in
`*val` (it returns 0). -/
def target_read_requested (s : State) : State × Nat :=
  (s, rd s s.current_reg)

/-- The callback `target_read_processed`: the state, and the byte stored in
`*val` (it returns 0). -/
def target_read_processed (s : State) : State × Nat :=
  let s := { s with current_reg := (s.current_reg + 1) % REG_COUNT }
  (s, rd s s.current_reg)

/-- The callback `target_stop`: it logs and returns 0. -/
def target_stop (s : State) : State := s

/-- The assignments of `i2c_slave_init`; `rand` is the value of
`sys_rand32_get()`. The result of `i2c_target_register` and the start of the
timer do not touch the state. -/
def i2c_slave_init (rand : Nat) (s : State) : State :=
  -- Generate random session code
  let code := (rand &&& 0xFF) % 2 ^ 8
  let s := wr s REG_SESSION_CODE code
  -- STATUS initial: locked
  let s := wr s REG_STATUS STATUS_LOCKED
  wr s REG_LOCK_STATUS LOCKED

/-- One iteration of the `while (1)` loop of `i2c_slave_main`; `uptime` is the
value of `k_uptime_get()`, which the source stores in `uint32_t now`, and
`r1`, `r2` are the random values `complete_measurement` draws. -/
def i2c_slave_main_iter (uptime : Int) (r1 r2 : Nat) (s : State) : State :=
  let now : Int := uptime % 2 ^ 32
  if s.measurement_in_progress ∧ now - s.measurement_start_time_ms ≥ MEASUREMENT_DELAY_MS then
    complete_measurement r1 r2 s
  else s

/-! ## Executions -/

/-- What can happen to the device after `i2c_slave_init`: the five bus
callbacks, an expiry of `lock_timer`, and an iteration of the loop of
`i2c_slave_main`, each with the values the environment supplies. -/
inductive Event where
  | write_requested
  | write_received (now : Int) (val : Nat)
  | read_requested
  | read_processed
  | stop
  | lock_timeout (now : Int)
  | main_poll (uptime : Int) (r1 r2 : Nat)
deriving DecidableEq, Repr

/-- The values an event carries fit their C types: `val` is a `uint8_t`, the
random values are `uint32_t`. -/
def Event.valid : Event → Prop
  | .write_received _ val => val < 2 ^ 8
  | .main_poll _ r1 r2 => r1 < 2 ^ 32 ∧ r2 < 2 ^ 32
  | _ => True

instance : DecidablePred Event.valid := fun e => by
  cases e <;> unfold Event.valid <;> infer_instance

/-- The effect of one event on the state. -/
def step (s : State) : Event → State
  | .write_requested => target_write_requested s
  | .write_received now val => target_write_received now val s
  | .read_requested => (target_read_requested s).1
  | .read_processed => (target_read_processed s).1
  | .stop => target_stop s
  | .lock_timeout now => lock_timeout_handler now s
  | .main_poll uptime r1 r2 => i2c_slave_main_iter uptime r1 r2 s

/-- The effect of a sequence of events, first to last. -/
def run (s : State) (es : List Event) : State := es.foldl step s

/-- The states the device passes through from `s0`, one valid event at a time. -/
inductive ReachableFrom (s0 : State) : State → Prop where
  | start : ReachableFrom s0 s0
  | next (s : State) (e : Event) : ReachableFrom s0 s → e.valid → ReachableFrom s0 (step s e)

/-- The states reachable from initialization: `i2c_slave_init` with some
32-bit random value on the static initial state, then any valid events. -/
def Reachable (s : State) : Prop :=
  ∃ rand, rand < 2 ^ 32 ∧ ReachableFrom (i2c_slave_init rand initial_state) s

/-- The facts that hold of every state reachable from an initialization that
drew the session code `code`. -/
structure Inv (code : Nat) (s : State) : Prop where
  wf : s.WF
  ptr : s.current_reg < REG_COUNT
  who : rd s REG_WHO_AM_I = 0x42
  session : rd s REG_SESSION_CODE = code
  lock01 : rd s REG_LOCK_STATUS = UNLOCKED ∨ rd s REG_LOCK_STATUS = LOCKED
  locked_bit : (rd s REG_STATUS).testBit 1 = true ↔ rd s REG_LOCK_STATUS = LOCKED
  locked_regs : rd s REG_LOCK_STATUS = LOCKED →
    rd s REG_TEMP_L = 0xFF ∧ rd s REG_TEMP_H = 0xFF ∧ rd s REG_HUMID_H = 0xFF ∧
    rd s REG_HUMID_L = 0xFF ∧ (rd s REG_STATUS).testBit 0 = false ∧
    s.measurement_in_progress = false
  ready : (rd s REG_STATUS).testBit 0 = true →
    2000 ≤ rd s REG_TEMP_L + 256 * rd s REG_TEMP_H ∧
    rd s REG_TEMP_L + 256 * rd s REG_TEMP_H ≤ 2999 ∧
    5000 ≤ rd s REG_HUMID_L + 256 * rd s REG_HUMID_H ∧
    rd s REG_HUMID_L + 256 * rd s REG_HUMID_H ≤ 6999

/-! ## Sample executions -/

/-- The state after `i2c_slave_init` drew `0x1234`: the session code is `0x34`. -/
def booted : State := i2c_slave_init 0x1234 initial_state

/-- A write transaction has addressed `WHO_AM_I`. -/
def at_who_am_i : State := run booted [.write_requested, .write_received 10 REG_WHO_AM_I]

/-- A write transaction has addressed `UNLOCK`. -/
def at_unlock : State := run booted [.write_requested, .write_received 10 REG_UNLOCK]

/-- A write transaction has addressed `CTRL1` while the device is locked. -/
def at_ctrl1_locked : State := run booted [.write_requested, .write_received 10 REG_CTRL1]

/-- The device has been unlocked at uptime 20 and a write transaction has
addressed `CTRL1`. -/
def at_ctrl1_unlocked : State :=
  run at_unlock [.write_received 20 0x34, .stop, .write_requested, .write_received 30 REG_CTRL1]

/-- A measurement has been started at uptime 40. -/
def measuring : State := run at_ctrl1_unlocked [.write_received 40 0x01, .stop]

/-- The device is unlocked at uptime `2 ^ 32 - 300` and a measurement is
started at uptime `2 ^ 32 - 100`. -/
def measuring_late : State :=
  run at_unlock [.write_received 4294966996 0x34, .stop, .write_requested,
    .write_received 4294967100 REG_CTRL1, .write_received 4294967196 0x01, .stop]

/-- The sample measurement `measuring` has completed at uptime 540 with the
random values 1999 and 3999; the device was unlocked at uptime 20. -/
def measured : State := run measuring [.main_poll 540 1999 3999]

/-! ## Read transactions and the controller helpers of `main.c`

The transport between controller and target is not part of the sources. It
delivers an `i2c_write` of `n` bytes as write-start, the `n` bytes, stop, and
an `i2c_read` of `k` bytes as read-request, `k - 1` read-continue, stop. -/

/-- The bytes of `n` read-continue events in a row (`target_read_processed`),
and the state they lead to. -/
def read_burst : Nat → State → State × List Nat
  | 0, s => (s, [])
  | n + 1, s =>
    let r := target_read_processed s
    let rest := read_burst n r.1
    (rest.1, r.2 :: rest.2)

/-- The bytes of a read transaction of `k` bytes, `k ≥ 1`: one read-request
(`target_read_requested`) followed by `k - 1` read-continue events, and the
state they lead to. -/
def read_transaction (k : Nat) (s : State) : State × List Nat :=
  let r := target_read_requested s
  let rest := read_burst (k - 1) r.1
  (rest.1, r.2 :: rest.2)

/-- The helper `i2c_write_reg` of `main.c`, as the target sees it: write-start,
the byte `reg`, the byte `val`, stop; `now` is the uptime of the transaction. -/
def i2c_write_reg (now : Int) (reg val : Nat) (s : State) : State :=
  run s [.write_requested, .write_received now reg, .write_received now val, .stop]

/-- The one-byte `i2c_write` that opens the read helpers of `main.c`:
write-start, the byte `reg`, stop. The byte is taken in the address phase,
where the target does not read the uptime. -/
def i2c_write_addr (reg : Nat) (s : State) : State :=
  run s [.write_requested, .write_received 0 reg, .stop]

/-- The helper `i2c_read_reg` of `main.c`, as the target sees it: the register
address is written, then one byte is read; the state, and the byte in `*val`. -/
def i2c_read_reg (reg : Nat) (s : State) : State × Nat :=
  let r := read_transaction 1 (i2c_write_addr reg s)
  (target_stop r.1, r.2.getD 0 0)

/-- The helper `i2c_read_u16` of `main.c`, as the target sees it: the register
address is written, then two bytes `buf[0]`, `buf[1]` are read; the state, and
`((uint16_t)buf[1] << 8) | buf[0]` in `*out`. -/
def i2c_read_u16 (reg : Nat) (s : State) : State × Nat :=
  let r := read_transaction 2 (i2c_write_addr reg s)
  (target_stop r.1, ((r.2.getD 1 0 % 2 ^ 16) <<< 8 ||| r.2.getD 0 0) % 2 ^ 16)

/-! ## The end-to-end scenario

The steps of `main` in `main.c`, with the reads of `STATUS` and `LOCK_STATUS`
that observe each step, one completion poll and one timeout check. Each
definition is the state after the step, or the state and the byte read. -/

/-- Initialization with the random value `rand`. -/
def scn_init (rand : Nat) : State := i2c_slave_init rand initial_state

/-- Step 1: read `WHO_AM_I`. -/
def scn_who (rand : Nat) : State × Nat := i2c_read_reg REG_WHO_AM_I (scn_init rand)

/-- Step 2: write `0x01` to `CTRL1` at uptime `t1`, while locked. -/
def scn_locked_start (rand : Nat) (t1 : Int) : State :=
  i2c_write_reg t1 REG_CTRL1 0x01 (scn_who rand).1

/-- Step 3: read `SESSION_CODE`. -/
def scn_code (rand : Nat) (t1 : Int) : State × Nat :=
  i2c_read_reg REG_SESSION_CODE (scn_locked_start rand t1)

/-- Step 4: write the byte read in step 3 to `UNLOCK` at uptime `t2`. -/
def scn_unlock (rand : Nat) (t1 t2 : Int) : State :=
  i2c_write_reg t2 REG_UNLOCK (scn_code rand t1).2 (scn_code rand t1).1

/-- Step 5: read `LOCK_STATUS`. -/
def scn_lock_status (rand : Nat) (t1 t2 : Int) : State × Nat :=
  i2c_read_reg REG_LOCK_STATUS (scn_unlock rand t1 t2)

/-- Step 6: write `0x01` to `CTRL1` at uptime `t3`. -/
def scn_start (rand : Nat) (t1 t2 t3 : Int) : State :=
  i2c_write_reg t3 REG_CTRL1 0x01 (scn_lock_status rand t1 t2).1

/-- Step 7: one completion poll at uptime `t4`, drawing `r1` and `r2`. -/
def scn_poll (rand : Nat) (t1 t2 t3 t4 : Int) (r1 r2 : Nat) : State :=
  i2c_slave_main_iter t4 r1 r2 (scn_start rand t1 t2 t3)

/-- Step 8: read `STATUS`. -/
def scn_status (rand : Nat) (t1 t2 t3 t4 : Int) (r1 r2 : Nat) : State × Nat :=
  i2c_read_reg REG_STATUS (scn_poll rand t1 t2 t3 t4 r1 r2)

/-- Step 9: one timeout check at uptime `t5`. -/
def scn_timeout (rand : Nat) (t1 t2 t3 t4 t5 : Int) (r1 r2 : Nat) : State :=
  lock_timeout_handler t5 (scn_status rand t1 t2 t3 t4 r1 r2).1

/-- Step 10: read `LOCK_STATUS`. -/
def scn_relocked (rand : Nat) (t1 t2 t3 t4 t5 : Int) (r1 r2 : Nat) : State × Nat :=
  i2c_read_reg REG_LOCK_STATUS (scn_timeout rand t1 t2 t3 t4 t5 r1 r2)

/-! ## Register-file lemmas -/

theorem rd_wr_eq (s : State) (i v : Nat) (h : i < s.registers.length) :
    rd (wr s i v) i = v := by
  simp [rd, wr, List.getD_eq_getElem?_getD, List.getElem?_set, h]

theorem rd_wr_ne (s : State) (i j v : Nat) (h : i ≠ j) :
    rd (wr s i v) j = rd s j := by
  simp [rd, wr, List.getD_eq_getElem?_getD, List.getElem?_set, h]

theorem wr_length (s : State) (i v : Nat) :
    (wr s i v).registers.length = s.registers.length := by
  simp [wr]

theorem rd_lt (s : State) (h : s.WF) (i : Nat) : rd s i < 256 := by
  unfold rd
  rw [List.getD_eq_getElem?_getD]
  cases hi : s.registers[i]? with
  | none => simp
  | some x => exact h.2 x (List.getElem?_mem hi)

theorem wr_WF (s : State) (h : s.WF) (i v : Nat) (hv : v < 256) : (wr s i v).WF := by
  refine ⟨by rw [wr_length]; exact h.1, ?_⟩
  intro x hx
  rcases List.mem_or_eq_of_mem_set hx with hx | hx
  · exact h.2 x hx
  · exact hx ▸ hv

theorem regs_eq_of_length (l : List Nat) (h : l.length = REG_COUNT) :
    ∃ a0 a1 a2 a3 a4 a5 a6 a7 a8 a9 a10 a11,
      l = [a0, a1, a2, a3, a4, a5, a6, a7, a8, a9, a10, a11] := by
  match l, h with
  | [a0, a1, a2, a3, a4, a5, a6, a7, a8, a9, a10, a11], _ =>
    exact ⟨a0, a1, a2, a3, a4, a5, a6, a7, a8, a9, a10, a11, rfl⟩

theorem State.WF.regs {s : State} (h : s.WF) :
    ∃ a0 a1 a2 a3 a4 a5 a6 a7 a8 a9 a10 a11,
      s.registers = [a0, a1, a2, a3, a4, a5, a6, a7, a8, a9, a10, a11] :=
  regs_eq_of_length s.registers h.1

/-! ## Bit lemmas for the `STATUS` masks -/

theorem testBit_clear (x k i : Nat) (hx : x < 256) (hk : k < 8) :
    (x &&& bnot8 (2 ^ k)).testBit i = (x.testBit i && decide (i ≠ k)) := by
  have h255 : (255 : Nat) = 2 ^ 8 - 1 := by norm_num
  rw [Nat.testBit_and, bnot8, Nat.testBit_xor, h255, Nat.testBit_two_pow_sub_one]
  by_cases hik : i = k
  · subst hik; simp [Nat.testBit_two_pow_self, hk]
  · rw [Nat.testBit_two_pow_of_ne (Ne.symm hik)]
    by_cases hi : i < 8
    · simp [hi, hik]
    · have : x.testBit i = false := by
        apply Nat.testBit_lt_two_pow
        calc x < 2 ^ 8 := by simpa using hx
          _ ≤ 2 ^ i := Nat.pow_le_pow_right (by norm_num) (by omega)
      simp [this]

theorem testBit_set (x k i : Nat) :
    (x ||| 2 ^ k).testBit i = (x.testBit i || decide (i = k)) := by
  rw [Nat.testBit_or]
  by_cases hik : i = k
  · subst hik; simp [Nat.testBit_two_pow_self]
  · rw [Nat.testBit_two_pow_of_ne (Ne.symm hik)]; simp [hik]

theorem clear_lt (x m : Nat) (hx : x < 256) : x &&& m < 256 :=
  Nat.lt_of_le_of_lt Nat.and_le_left hx

theorem set_lt (x k : Nat) (hx : x < 256) (hk : k < 8) : x ||| 2 ^ k < 256 := by
  have h1 : x < 2 ^ 8 := by simpa using hx
  have h2 : 2 ^ k < 2 ^ 8 := Nat.pow_lt_pow_right (by norm_num) hk
  simpa using Nat.or_lt_two_pow h1 h2

theorem and_one_ne_zero_of_testBit (v : Nat) (hv : v.testBit 0 = true) : v &&& 0x01 ≠ 0 := by
  rw [Nat.testBit_zero] at hv
  have := Nat.and_one_is_mod v
  simp at hv
  omega

theorem byte_pair (x : Nat) (hx : x < 2 ^ 16) :
    (x &&& 0xFF) + 256 * ((x >>> 8) &&& 0xFF) = x := by
  have h1 : x &&& 0xFF = x % 256 := Nat.and_pow_two_sub_one_eq_mod x 8
  have h2 : (x >>> 8) &&& 0xFF = (x >>> 8) % 256 := Nat.and_pow_two_sub_one_eq_mod _ 8
  rw [h1, h2, Nat.shiftRight_eq_div_pow]
  norm_num at hx ⊢
  omega

theorem complete_measurement_temp_eq (r1 : Nat) :
    complete_measurement_temp r1 = 2000 + r1 % 1000 := by
  unfold complete_measurement_temp; omega

theorem complete_measurement_humid_eq (r2 : Nat) :
    complete_measurement_humid r2 = 5000 + r2 % 2000 := by
  unfold complete_measurement_humid; omega

/-! ## The branches of `target_write_received` -/

theorem twr_addr (now : Int) (v : Nat) (s : State) (h : s.reg_addr_received = false) :
    target_write_received now v s =
      { s with current_reg := v % REG_COUNT, reg_addr_received := true } := by
  simp [target_write_received, h]

theorem twr_readonly (now : Int) (v : Nat) (s : State) (h : s.reg_addr_received = true)
    (hro : reg_readonly.getD s.current_reg false = true) :
    target_write_received now v s =
      { s with current_reg := (s.current_reg + 1) % REG_COUNT } := by
  simp only [target_write_received, h, hro, Bool.not_true, Bool.false_eq_true, if_false, if_true]

theorem twr_unlock_ok (now : Int) (v : Nat) (s : State) (h : s.reg_addr_received = true)
    (hreg : s.current_reg = REG_UNLOCK) (hv : v = rd s REG_SESSION_CODE) :
    target_write_received now v s =
      { unlock_device now (wr s REG_UNLOCK v) with current_reg := (REG_UNLOCK + 1) % REG_COUNT } := by
  have hro : reg_readonly.getD REG_UNLOCK false = false := by decide
  have h9 : v = rd (wr s REG_UNLOCK v) REG_SESSION_CODE := by
    rw [rd_wr_ne _ _ _ _ (by decide)]; exact hv
  have hc : (wr s REG_UNLOCK v).current_reg = REG_UNLOCK := hreg
  have hne : ¬ (REG_UNLOCK = REG_CTRL1 ∧ v &&& 0x01 ≠ 0) := fun h => absurd h.1 (by decide)
  have hu : (unlock_device now (wr s REG_UNLOCK v)).current_reg = REG_UNLOCK := hreg
  simp only [target_write_received, h, hreg, hro, hc, hne, Bool.not_true, Bool.false_eq_true,
    if_false, if_true]
  rw [if_pos h9, hu]

theorem twr_unlock_bad (now : Int) (v : Nat) (s : State) (h : s.reg_addr_received = true)
    (hreg : s.current_reg = REG_UNLOCK) (hv : v ≠ rd s REG_SESSION_CODE) :
    target_write_received now v s =
      { wr s REG_UNLOCK v with current_reg := (REG_UNLOCK + 1) % REG_COUNT } := by
  have hro : reg_readonly.getD REG_UNLOCK false = false := by decide
  have h9 : ¬ v = rd (wr s REG_UNLOCK v) REG_SESSION_CODE := by
    rw [rd_wr_ne _ _ _ _ (by decide)]; exact hv
  have hc : (wr s REG_UNLOCK v).current_reg = REG_UNLOCK := hreg
  have hne : ¬ (REG_UNLOCK = REG_CTRL1 ∧ v &&& 0x01 ≠ 0) := fun h => absurd h.1 (by decide)
  simp only [target_write_received, h, hreg, hro, hc, hne, Bool.not_true, Bool.false_eq_true,
    if_false, if_true]
  rw [if_neg h9, hc]

theorem start_measurement_current_reg (now : Int) (s : State) :
    (start_measurement now s).current_reg = s.current_reg := by
  unfold start_measurement
  split
  · rfl
  · split <;> rfl

theorem start_measurement_reg_addr_received (now : Int) (s : State) :
    (start_measurement now s).reg_addr_received = s.reg_addr_received := by
  unfold start_measurement
  split
  · rfl
  · split <;> rfl

theorem twr_ctrl1_start (now : Int) (v : Nat) (s : State) (h : s.reg_addr_received = true)
    (hreg : s.current_reg = REG_CTRL1) (hv : v &&& 0x01 ≠ 0) :
    target_write_received now v s =
      { start_measurement now (wr s REG_CTRL1 v) with
        current_reg := (REG_CTRL1 + 1) % REG_COUNT } := by
  have hro : reg_readonly.getD REG_CTRL1 false = false := by decide
  have hc : (wr s REG_CTRL1 v).current_reg = REG_CTRL1 := hreg
  have hs : (start_measurement now (wr s REG_CTRL1 v)).current_reg = REG_CTRL1 := by
    rw [start_measurement_current_reg]; exact hreg
  have hne : ¬ (REG_CTRL1 = REG_UNLOCK) := by decide
  simp only [target_write_received, h, hreg, hro, hc, hv, hs, hne, Bool.not_true,
    Bool.false_eq_true, if_false, if_true, ne_eq, not_false_eq_true, and_self]

theorem twr_plain (now : Int) (v : Nat) (s : State) (h : s.reg_addr_received = true)
    (hro : reg_readonly.getD s.current_reg false = false)
    (h1 : ¬ (s.current_reg = REG_CTRL1 ∧ v &&& 0x01 ≠ 0)) (h2 : s.current_reg ≠ REG_UNLOCK) :
    target_write_received now v s =
      { wr s s.current_reg v with current_reg := (s.current_reg + 1) % REG_COUNT } := by
  have hc : (wr s s.current_reg v).current_reg = s.current_reg := rfl
  simp only [target_write_received, h, hro, hc, h1, h2, Bool.not_true, Bool.false_eq_true,
    if_false, if_true]

/-! ## Writes to `UNLOCK`, to read-only registers and to `CTRL1` -/

/-- C1. In the data phase with the address pointer at `UNLOCK`, writing the
byte held in `SESSION_CODE` leaves `LOCK_STATUS = 0x00`, `STATUS` bit 1 clear
and the unlock timestamp equal to `now`, and changes neither the four
temperature and humidity registers nor the measurement flag and its start
timestamp; writing any other byte leaves `LOCK_STATUS` and `STATUS` as they
were. -/
theorem unlock_write_effect (s : State) (now : Int) (v : Nat) (hwf : s.WF)
    (hdata : s.reg_addr_received = true) (hreg : s.current_reg = REG_UNLOCK) :
    (v = rd s REG_SESSION_CODE →
      rd (target_write_received now v s) REG_LOCK_STATUS = UNLOCKED ∧
      (rd (target_write_received now v s) REG_STATUS).testBit 1 = false ∧
      (target_write_received now v s).unlock_time_ms = now ∧
      rd (target_write_received now v s) REG_TEMP_L = rd s REG_TEMP_L ∧
      rd (target_write_received now v s) REG_TEMP_H = rd s REG_TEMP_H ∧
      rd (target_write_received now v s) REG_HUMID_H = rd s REG_HUMID_H ∧
      rd (target_write_received now v s) REG_HUMID_L = rd s REG_HUMID_L ∧
      (target_write_received now v s).measurement_in_progress = s.measurement_in_progress ∧
      (target_write_received now v s).measurement_start_time_ms =
        s.measurement_start_time_ms) ∧
    (v ≠ rd s REG_SESSION_CODE →
      rd (target_write_received now v s) REG_LOCK_STATUS = rd s REG_LOCK_STATUS ∧
      rd (target_write_received now v s) REG_STATUS = rd s REG_STATUS) := by
  have hb := rd_lt s hwf REG_STATUS
  obtain ⟨a0, a1, a2, a3, a4, a5, a6, a7, a8, a9, a10, a11, hregs⟩ := hwf.regs
  obtain ⟨regs, cr, ar, mip, mst, ut⟩ := s
  simp only at hdata hreg hregs
  subst hdata hreg hregs
  constructor
  · intro hv
    rw [twr_unlock_ok now v _ rfl rfl hv]
    refine ⟨rfl, ?_, rfl, rfl, rfl, rfl, rfl, rfl, rfl⟩
    show (a2 &&& bnot8 STATUS_LOCKED).testBit 1 = false
    have := testBit_clear a2 1 1 hb (by norm_num)
    simpa using this
  · intro hv
    rw [twr_unlock_bad now v _ rfl rfl hv]
    exact ⟨rfl, rfl⟩

/-- The unlock write at the sample state `at_unlock`: the session code `0x34`
unlocks the device, the byte `0x35` leaves it locked. -/
theorem unlock_write_effect_witness :
    at_unlock.WF ∧ at_unlock.reg_addr_received = true ∧ at_unlock.current_reg = REG_UNLOCK ∧
    (0x34 : Nat) = rd at_unlock REG_SESSION_CODE ∧
    rd (target_write_received 20 0x34 at_unlock) REG_LOCK_STATUS = UNLOCKED ∧
    (0x35 : Nat) ≠ rd at_unlock REG_SESSION_CODE ∧
    rd (target_write_received 20 0x35 at_unlock) REG_LOCK_STATUS = LOCKED :=
  ⟨by decide, rfl, rfl, rfl,
    ((unlock_write_effect at_unlock 20 0x34 (by decide) rfl rfl).1 rfl).1,
    by decide,
    ((unlock_write_effect at_unlock 20 0x35 (by decide) rfl rfl).2 (by decide)).1⟩

/-- C2. A data-phase write while the address pointer is at a read-only
register (`WHO_AM_I`, `STATUS`, `TEMP_L`, `TEMP_H`, `HUMID_H`, `HUMID_L`,
`SESSION_CODE`, `LOCK_STATUS`) leaves the whole register file, the measurement
flag and both timestamps unchanged; only the address pointer changes, to its
successor modulo 12. -/
theorem readonly_write_frame (s : State) (now : Int) (v : Nat)
    (hdata : s.reg_addr_received = true)
    (hreg : s.current_reg = REG_WHO_AM_I ∨ s.current_reg = REG_STATUS ∨
      s.current_reg = REG_TEMP_L ∨ s.current_reg = REG_TEMP_H ∨
      s.current_reg = REG_HUMID_H ∨ s.current_reg = REG_HUMID_L ∨
      s.current_reg = REG_SESSION_CODE ∨ s.current_reg = REG_LOCK_STATUS) :
    (target_write_received now v s).registers = s.registers ∧
    (target_write_received now v s).measurement_in_progress = s.measurement_in_progress ∧
    (target_write_received now v s).measurement_start_time_ms = s.measurement_start_time_ms ∧
    (target_write_received now v s).unlock_time_ms = s.unlock_time_ms ∧
    (target_write_received now v s).reg_addr_received = s.reg_addr_received ∧
    (target_write_received now v s).current_reg = (s.current_reg + 1) % REG_COUNT := by
  have hro : reg_readonly.getD s.current_reg false = true := by
    rcases hreg with h | h | h | h | h | h | h | h <;> rw [h] <;> decide
  rw [twr_readonly now v s hdata hro]
  exact ⟨rfl, rfl, rfl, rfl, rfl, rfl⟩

/-- A write of `0x99` to `WHO_AM_I` at the sample state `at_who_am_i`. -/
theorem readonly_write_frame_witness :
    at_who_am_i.reg_addr_received = true ∧ at_who_am_i.current_reg = REG_WHO_AM_I ∧
    (target_write_received 20 0x99 at_who_am_i).registers = at_who_am_i.registers ∧
    (target_write_received 20 0x99 at_who_am_i).current_reg = 1 :=
  ⟨rfl, rfl, (readonly_write_frame at_who_am_i 20 0x99 rfl (Or.inl rfl)).1,
    (readonly_write_frame at_who_am_i 20 0x99 rfl (Or.inl rfl)).2.2.2.2.2⟩

/-- C3. In an unlocked state with no measurement in progress, a data-phase
write to `CTRL1` of a byte with bit 0 set, at time `now`, sets the measurement
flag, sets the start timestamp to `now`, clears `STATUS` bit 0, and leaves the
other `STATUS` bits and the temperature and humidity registers unchanged. -/
theorem ctrl1_start_effect (s : State) (now : Int) (v : Nat) (hwf : s.WF)
    (hdata : s.reg_addr_received = true) (hreg : s.current_reg = REG_CTRL1)
    (hunlocked : rd s REG_LOCK_STATUS = UNLOCKED) (hidle : s.measurement_in_progress = false)
    (hv : v.testBit 0 = true) :
    (target_write_received now v s).measurement_in_progress = true ∧
    (target_write_received now v s).measurement_start_time_ms = now ∧
    (rd (target_write_received now v s) REG_STATUS).testBit 0 = false ∧
    (∀ i, i ≠ 0 →
      (rd (target_write_received now v s) REG_STATUS).testBit i = (rd s REG_STATUS).testBit i) ∧
    rd (target_write_received now v s) REG_TEMP_L = rd s REG_TEMP_L ∧
    rd (target_write_received now v s) REG_TEMP_H = rd s REG_TEMP_H ∧
    rd (target_write_received now v s) REG_HUMID_H = rd s REG_HUMID_H ∧
    rd (target_write_received now v s) REG_HUMID_L = rd s REG_HUMID_L := by
  have hb := rd_lt s hwf REG_STATUS
  rw [twr_ctrl1_start now v s hdata hreg (and_one_ne_zero_of_testBit v hv)]
  obtain ⟨a0, a1, a2, a3, a4, a5, a6, a7, a8, a9, a10, a11, hregs⟩ := hwf.regs
  obtain ⟨regs, cr, ar, mip, mst, ut⟩ := s
  simp only at hdata hreg hregs hidle
  subst hdata hreg hregs hidle
  have hl : a11 = 0 := hunlocked
  subst hl
  have hc := testBit_clear a2 0
  refine ⟨rfl, rfl, ?_, ?_, rfl, rfl, rfl, rfl⟩
  · show (a2 &&& bnot8 STATUS_DATA_READY).testBit 0 = false
    simpa using hc 0 hb (by norm_num)
  · intro i hi
    show (a2 &&& bnot8 STATUS_DATA_READY).testBit i = a2.testBit i
    simpa [hi] using hc i hb (by norm_num)

/-- A start request at uptime 40 at the sample state `at_ctrl1_unlocked`. -/
theorem ctrl1_start_effect_witness :
    at_ctrl1_unlocked.WF ∧ at_ctrl1_unlocked.reg_addr_received = true ∧
    at_ctrl1_unlocked.current_reg = REG_CTRL1 ∧
    rd at_ctrl1_unlocked REG_LOCK_STATUS = UNLOCKED ∧
    at_ctrl1_unlocked.measurement_in_progress = false ∧ (0x01 : Nat).testBit 0 = true ∧
    (target_write_received 40 0x01 at_ctrl1_unlocked).measurement_in_progress = true ∧
    (target_write_received 40 0x01 at_ctrl1_unlocked).measurement_start_time_ms = 40 :=
  ⟨by decide, rfl, rfl, rfl, rfl, by decide,
    (ctrl1_start_effect at_ctrl1_unlocked 40 0x01 (by decide) rfl rfl rfl rfl (by decide)).1,
    (ctrl1_start_effect at_ctrl1_unlocked 40 0x01 (by decide) rfl rfl rfl rfl (by decide)).2.1⟩

/-- C4. In a state that is locked, or that already has a measurement in
progress, a data-phase write to `CTRL1` of a byte with bit 0 set leaves the
measurement flag, the start timestamp, `STATUS`, `LOCK_STATUS` and the
temperature and humidity registers unchanged. -/
theorem ctrl1_rejected_start_frame (s : State) (now : Int) (v : Nat)
    (hdata : s.reg_addr_received = true) (hreg : s.current_reg = REG_CTRL1)
    (hrej : rd s REG_LOCK_STATUS = LOCKED ∨ s.measurement_in_progress = true)
    (hv : v.testBit 0 = true) :
    (target_write_received now v s).measurement_in_progress = s.measurement_in_progress ∧
    (target_write_received now v s).measurement_start_time_ms = s.measurement_start_time_ms ∧
    rd (target_write_received now v s) REG_STATUS = rd s REG_STATUS ∧
    rd (target_write_received now v s) REG_LOCK_STATUS = rd s REG_LOCK_STATUS ∧
    rd (target_write_received now v s) REG_TEMP_L = rd s REG_TEMP_L ∧
    rd (target_write_received now v s) REG_TEMP_H = rd s REG_TEMP_H ∧
    rd (target_write_received now v s) REG_HUMID_H = rd s REG_HUMID_H ∧
    rd (target_write_received now v s) REG_HUMID_L = rd s REG_HUMID_L := by
  rw [twr_ctrl1_start now v s hdata hreg (and_one_ne_zero_of_testBit v hv)]
  have hl : rd (wr s REG_CTRL1 v) REG_LOCK_STATUS = rd s REG_LOCK_STATUS :=
    rd_wr_ne _ _ _ _ (by decide)
  have hm : (wr s REG_CTRL1 v).measurement_in_progress = s.measurement_in_progress := rfl
  have hs : start_measurement now (wr s REG_CTRL1 v) = wr s REG_CTRL1 v := by
    unfold start_measurement
    rw [hl, hm]
    rcases hrej with h | h
    · rw [if_pos h]
    · rw [h]; simp
  rw [hs]
  exact ⟨rfl, rfl, rd_wr_ne _ _ _ _ (by decide), rd_wr_ne _ _ _ _ (by decide),
    rd_wr_ne _ _ _ _ (by decide), rd_wr_ne _ _ _ _ (by decide),
    rd_wr_ne _ _ _ _ (by decide), rd_wr_ne _ _ _ _ (by decide)⟩

/-- A start request while locked (sample state `at_ctrl1_locked`). -/
theorem ctrl1_rejected_start_frame_witness :
    at_ctrl1_locked.reg_addr_received = true ∧ at_ctrl1_locked.current_reg = REG_CTRL1 ∧
    rd at_ctrl1_locked REG_LOCK_STATUS = LOCKED ∧ (0x01 : Nat).testBit 0 = true ∧
    (target_write_received 20 0x01 at_ctrl1_locked).measurement_in_progress =
      at_ctrl1_locked.measurement_in_progress ∧
    rd (target_write_received 20 0x01 at_ctrl1_locked) REG_STATUS =
      rd at_ctrl1_locked REG_STATUS :=
  ⟨rfl, rfl, rfl, by decide,
    (ctrl1_rejected_start_frame at_ctrl1_locked 20 0x01 rfl rfl (Or.inl rfl) (by decide)).1,
    (ctrl1_rejected_start_frame at_ctrl1_locked 20 0x01 rfl rfl (Or.inl rfl) (by decide)).2.2.1⟩

/-! ## Completion of a measurement -/

/-- C5. For all random values `r1`, `r2`, `complete_measurement` produces
`temp = 2000 + r1 mod 1000`, in `[2000, 2999]`, and
`humid = 5000 + r2 mod 2000`, in `[5000, 6999]` (nothing is lost in 16 bits);
afterwards `TEMP_L + 256 * TEMP_H = temp`, `HUMID_L + 256 * HUMID_H = humid`,
`STATUS` bit 0 is set, the other `STATUS` bits are unchanged and no
measurement is in progress. -/
theorem complete_measurement_effect (s : State) (r1 r2 : Nat) (hwf : s.WF) :
    complete_measurement_temp r1 = 2000 + r1 % 1000 ∧
    2000 ≤ complete_measurement_temp r1 ∧ complete_measurement_temp r1 ≤ 2999 ∧
    complete_measurement_humid r2 = 5000 + r2 % 2000 ∧
    5000 ≤ complete_measurement_humid r2 ∧ complete_measurement_humid r2 ≤ 6999 ∧
    rd (complete_measurement r1 r2 s) REG_TEMP_L +
      256 * rd (complete_measurement r1 r2 s) REG_TEMP_H = complete_measurement_temp r1 ∧
    rd (complete_measurement r1 r2 s) REG_HUMID_L +
      256 * rd (complete_measurement r1 r2 s) REG_HUMID_H = complete_measurement_humid r2 ∧
    (rd (complete_measurement r1 r2 s) REG_STATUS).testBit 0 = true ∧
    (∀ i, i ≠ 0 →
      (rd (complete_measurement r1 r2 s) REG_STATUS).testBit i = (rd s REG_STATUS).testBit i) ∧
    (complete_measurement r1 r2 s).measurement_in_progress = false := by
  have ht := complete_measurement_temp_eq r1
  have hh := complete_measurement_humid_eq r2
  obtain ⟨a0, a1, a2, a3, a4, a5, a6, a7, a8, a9, a10, a11, hregs⟩ := hwf.regs
  obtain ⟨regs, cr, ar, mip, mst, ut⟩ := s
  simp only at hregs
  subst hregs
  refine ⟨ht, by omega, by omega, hh, by omega, by omega, ?_, ?_, ?_, ?_, rfl⟩
  · exact byte_pair _ (by rw [ht]; norm_num; omega)
  · exact byte_pair _ (by rw [hh]; norm_num; omega)
  · show (a2 ||| 2 ^ 0).testBit 0 = true
    rw [testBit_set]; simp
  · intro i hi
    show (a2 ||| 2 ^ 0).testBit i = a2.testBit i
    rw [testBit_set]; simp [hi]

/-- Completion of the sample measurement `measuring` with the random values
`0xFFFFFFFF` and `12345`. -/
theorem complete_measurement_effect_witness :
    measuring.WF ∧ complete_measurement_temp 0xFFFFFFFF = 2000 + 0xFFFFFFFF % 1000 ∧
    rd (complete_measurement 0xFFFFFFFF 12345 measuring) REG_TEMP_L +
      256 * rd (complete_measurement 0xFFFFFFFF 12345 measuring) REG_TEMP_H =
      complete_measurement_temp 0xFFFFFFFF :=
  ⟨by decide, (complete_measurement_effect measuring 0xFFFFFFFF 12345 (by decide)).1,
    (complete_measurement_effect measuring 0xFFFFFFFF 12345 (by decide)).2.2.2.2.2.2.1⟩

/-! ## Reachability of the sample states -/

theorem reachableFrom_run (s0 : State) (es : List Event) (h : ∀ e ∈ es, e.valid) :
    ReachableFrom s0 (run s0 es) := by
  induction es using List.reverseRecOn with
  | nil => exact ReachableFrom.start
  | append_singleton es e ih =>
    have h1 : ∀ e ∈ es, e.valid := fun x hx => h x (List.mem_append_left _ hx)
    have h2 : e.valid := h e (by simp)
    have : run s0 (es ++ [e]) = step (run s0 es) e := by simp [run]
    rw [this]
    exact ReachableFrom.next _ _ (ih h1) h2

theorem reachableFrom_trans {s0 s1 s2 : State} (h1 : ReachableFrom s0 s1)
    (h2 : ReachableFrom s1 s2) : ReachableFrom s0 s2 := by
  induction h2 with
  | start => exact h1
  | next s e _ he ih => exact ReachableFrom.next s e ih he

theorem reachable_run {s : State} (h : Reachable s) (es : List Event)
    (hes : ∀ e ∈ es, e.valid) : Reachable (run s es) := by
  obtain ⟨rand, hr, hs⟩ := h
  exact ⟨rand, hr, reachableFrom_trans hs (reachableFrom_run s es hes)⟩

theorem reachable_booted : Reachable booted := ⟨0x1234, by norm_num, ReachableFrom.start⟩

theorem reachable_at_unlock : Reachable at_unlock :=
  reachable_run reachable_booted _ (by decide)

theorem reachable_measuring_late : Reachable measuring_late :=
  reachable_run reachable_at_unlock _ (by decide)

theorem reachable_measuring : Reachable measuring :=
  reachable_run (reachable_run reachable_at_unlock _ (by decide)) _ (by decide)

theorem reachable_measured : Reachable measured :=
  reachable_run reachable_measuring _ (by decide)

/-! ## Timed events -/

/-- C6. The completion poll stores the 64-bit uptime in a `uint32_t` before it
subtracts the start timestamp, so it does not complete every measurement that
is in progress and at least 500 ms old: in the reachable state
`measuring_late` the measurement started at uptime `2 ^ 32 - 100`, at uptime
`2 ^ 32 + 400` it is 500 ms old, and the poll leaves the state unchanged, the
measurement still in progress, where `complete_measurement` would end it. -/
theorem main_poll_uptime_truncated (r1 r2 : Nat) :
    Reachable measuring_late ∧
    measuring_late.measurement_in_progress = true ∧
    (4294967696 : Int) - measuring_late.measurement_start_time_ms ≥ MEASUREMENT_DELAY_MS ∧
    i2c_slave_main_iter 4294967696 r1 r2 measuring_late = measuring_late ∧
    (i2c_slave_main_iter 4294967696 r1 r2 measuring_late).measurement_in_progress = true ∧
    (complete_measurement r1 r2 measuring_late).measurement_in_progress = false :=
  ⟨reachable_measuring_late, rfl, by decide, rfl, rfl, rfl⟩

/-- For an uptime below `2 ^ 32` the completion poll completes the measurement
exactly when one is in progress and at least 500 ms old. -/
theorem main_poll_of_uptime_lt (s : State) (uptime : Int) (r1 r2 : Nat)
    (h0 : 0 ≤ uptime) (h1 : uptime < 2 ^ 32) :
    i2c_slave_main_iter uptime r1 r2 s =
      if s.measurement_in_progress = true ∧
          uptime - s.measurement_start_time_ms ≥ MEASUREMENT_DELAY_MS
      then complete_measurement r1 r2 s else s := by
  unfold i2c_slave_main_iter
  have : uptime % 2 ^ 32 = uptime := Int.emod_eq_of_lt h0 h1
  simp only [this]

/-- C7. `lock_timeout_handler` relocks the device exactly when
`LOCK_STATUS = Unlocked` and `now - unlock_time_ms > 5000`: in that case its
result is that of `lock_device`, with `LOCK_STATUS = 0x01`, `STATUS` bit 1 set
and bit 0 clear, the temperature and humidity registers at `0xFF` and no
measurement in progress; in every other case the state is unchanged. -/
theorem lock_timeout_handler_effect (s : State) (now : Int) (hwf : s.WF) :
    (rd s REG_LOCK_STATUS = UNLOCKED ∧ now - s.unlock_time_ms > 5000 →
      lock_timeout_handler now s = lock_device s ∧
      rd (lock_timeout_handler now s) REG_LOCK_STATUS = 0x01 ∧
      (rd (lock_timeout_handler now s) REG_STATUS).testBit 1 = true ∧
      (rd (lock_timeout_handler now s) REG_STATUS).testBit 0 = false ∧
      rd (lock_timeout_handler now s) REG_TEMP_L = 0xFF ∧
      rd (lock_timeout_handler now s) REG_TEMP_H = 0xFF ∧
      rd (lock_timeout_handler now s) REG_HUMID_H = 0xFF ∧
      rd (lock_timeout_handler now s) REG_HUMID_L = 0xFF ∧
      (lock_timeout_handler now s).measurement_in_progress = false) ∧
    (¬ (rd s REG_LOCK_STATUS = UNLOCKED ∧ now - s.unlock_time_ms > 5000) →
      lock_timeout_handler now s = s) := by
  constructor
  · rintro ⟨hu, ht⟩
    have hl : lock_timeout_handler now s = lock_device s := by
      unfold lock_timeout_handler
      rw [if_pos hu, if_pos ht]
    have hb := rd_lt s hwf REG_STATUS
    rw [hl]
    obtain ⟨a0, a1, a2, a3, a4, a5, a6, a7, a8, a9, a10, a11, hregs⟩ := hwf.regs
    obtain ⟨regs, cr, ar, mip, mst, ut⟩ := s
    simp only at hregs
    subst hregs
    have hb2 : a2 ||| 2 ^ 1 < 256 := set_lt a2 1 hb (by norm_num)
    refine ⟨rfl, rfl, ?_, ?_, rfl, rfl, rfl, rfl, rfl⟩
    · show ((a2 ||| 2 ^ 1) &&& bnot8 (2 ^ 0)).testBit 1 = true
      rw [testBit_clear _ _ _ hb2 (by norm_num), testBit_set]; simp
    · show ((a2 ||| 2 ^ 1) &&& bnot8 (2 ^ 0)).testBit 0 = false
      rw [testBit_clear _ _ _ hb2 (by norm_num)]; simp
  · intro h
    unfold lock_timeout_handler
    by_cases hu : rd s REG_LOCK_STATUS = UNLOCKED
    · rw [if_pos hu, if_neg (fun ht => h ⟨hu, ht⟩)]
    · rw [if_neg hu]

/-- The timeout check at the sample state `measured`, unlocked at uptime 20:
at uptime 5021 the device relocks, at uptime 5020 nothing happens. -/
theorem lock_timeout_handler_effect_witness :
    measured.WF ∧
    (rd measured REG_LOCK_STATUS = UNLOCKED ∧ (5021 : Int) - measured.unlock_time_ms > 5000) ∧
    lock_timeout_handler 5021 measured = lock_device measured ∧
    rd (lock_timeout_handler 5021 measured) REG_LOCK_STATUS = 0x01 ∧
    ¬ (rd measured REG_LOCK_STATUS = UNLOCKED ∧ (5020 : Int) - measured.unlock_time_ms > 5000) ∧
    lock_timeout_handler 5020 measured = measured :=
  ⟨by decide, by decide,
    ((lock_timeout_handler_effect measured 5021 (by decide)).1 (by decide)).1,
    ((lock_timeout_handler_effect measured 5021 (by decide)).1 (by decide)).2.1,
    by decide,
    (lock_timeout_handler_effect measured 5020 (by decide)).2 (by decide)⟩

/-! ## The invariant -/

theorem status_clear0 (x : Nat) (hx : x < 256) :
    (x &&& bnot8 STATUS_DATA_READY).testBit 0 = false ∧
    (x &&& bnot8 STATUS_DATA_READY).testBit 1 = x.testBit 1 ∧
    x &&& bnot8 STATUS_DATA_READY < 256 := by
  have h := testBit_clear x 0
  refine ⟨?_, ?_, clear_lt _ _ hx⟩
  · simpa using h 0 hx (by norm_num)
  · simpa using h 1 hx (by norm_num)

theorem status_clear1 (x : Nat) (hx : x < 256) :
    (x &&& bnot8 STATUS_LOCKED).testBit 1 = false ∧
    (x &&& bnot8 STATUS_LOCKED).testBit 0 = x.testBit 0 ∧
    x &&& bnot8 STATUS_LOCKED < 256 := by
  have h := testBit_clear x 1
  refine ⟨?_, ?_, clear_lt _ _ hx⟩
  · simpa using h 1 hx (by norm_num)
  · simpa using h 0 hx (by norm_num)

theorem status_set0 (x : Nat) (hx : x < 256) :
    (x ||| STATUS_DATA_READY).testBit 0 = true ∧
    (x ||| STATUS_DATA_READY).testBit 1 = x.testBit 1 ∧
    x ||| STATUS_DATA_READY < 256 := by
  have e : STATUS_DATA_READY = 2 ^ 0 := rfl
  rw [e]
  refine ⟨?_, ?_, set_lt x 0 hx (by norm_num)⟩
  · rw [testBit_set]; simp
  · rw [testBit_set]; simp

theorem status_set1 (x : Nat) (hx : x < 256) :
    (x ||| STATUS_LOCKED).testBit 1 = true ∧
    (x ||| STATUS_LOCKED).testBit 0 = x.testBit 0 ∧
    x ||| STATUS_LOCKED < 256 := by
  have e : STATUS_LOCKED = 2 ^ 1 := rfl
  rw [e]
  refine ⟨?_, ?_, set_lt x 1 hx (by norm_num)⟩
  · rw [testBit_set]; simp
  · rw [testBit_set]; simp

theorem Inv.of_eq {c : Nat} {s s' : State} (h : Inv c s) (hr : s'.registers = s.registers)
    (hm : s'.measurement_in_progress = s.measurement_in_progress)
    (hp : s'.current_reg < REG_COUNT) : Inv c s' := by
  have hrd : ∀ i, rd s' i = rd s i := fun i => by unfold rd; rw [hr]
  obtain ⟨hwf, _, hwho, hsess, h01, hbit, hlk, hrdy⟩ := h
  refine ⟨?_, hp, ?_, ?_, ?_, ?_, ?_, ?_⟩
  · unfold State.WF; rw [hr]; exact hwf
  · rw [hrd]; exact hwho
  · rw [hrd]; exact hsess
  · rw [hrd]; exact h01
  · rw [hrd, hrd]; exact hbit
  · simp only [hrd, hm]; exact hlk
  · simp only [hrd]; exact hrdy

theorem inv_init (rand : Nat) :
    Inv ((rand &&& 0xFF) % 2 ^ 8) (i2c_slave_init rand initial_state) := by
  have hlt : (rand &&& 0xFF) % 2 ^ 8 < 256 := Nat.mod_lt _ (by norm_num)
  refine ⟨⟨rfl, ?_⟩, ?_, rfl, rfl, Or.inr rfl, ?_, ?_, ?_⟩
  · intro x hx
    have hx' : x ∈ [0x42, 0x00, 2, 0xFF, 0xFF, 0xFF, 0xFF, 0x00, 0x00,
        (rand &&& 0xFF) % 2 ^ 8, 0x00, 0x01] := hx
    simp only [List.mem_cons, List.mem_singleton, List.mem_nil_iff, or_false] at hx'
    omega
  · show (0 : Nat) < 12
    norm_num
  · exact ⟨fun _ => rfl, fun _ => (by decide : (2 : Nat).testBit 1 = true)⟩
  · intro _; exact ⟨rfl, rfl, rfl, rfl, (by decide : (2 : Nat).testBit 0 = false), rfl⟩
  · intro h; exact absurd h (by decide : ¬ (2 : Nat).testBit 0 = true)

theorem inv_wr (c : Nat) (s : State) (h : Inv c s) (i v : Nat) (hv : v < 256)
    (hi : i = REG_CTRL1 ∨ i = REG_CONFIG ∨ i = REG_PADDING ∨ i = REG_UNLOCK ∨ REG_COUNT ≤ i) :
    Inv c (wr s i v) := by
  have hi' : i = 1 ∨ i = 7 ∨ i = 8 ∨ i = 10 ∨ 12 ≤ i := hi
  have hrd : ∀ j, j ≠ i → rd (wr s i v) j = rd s j := fun j hj => rd_wr_ne _ _ _ _ (Ne.symm hj)
  obtain ⟨hwf, hptr, hwho, hsess, h01, hbit, hlk, hrdy⟩ := h
  have e0 := hrd 0 (by omega)
  have e2 := hrd 2 (by omega)
  have e3 := hrd 3 (by omega)
  have e4 := hrd 4 (by omega)
  have e5 := hrd 5 (by omega)
  have e6 := hrd 6 (by omega)
  have e9 := hrd 9 (by omega)
  have e11 := hrd 11 (by omega)
  refine ⟨wr_WF s hwf i v hv, hptr, ?_, ?_, ?_, ?_, ?_, ?_⟩
  · rw [e0]; exact hwho
  · rw [e9]; exact hsess
  · rw [e11]; exact h01
  · rw [e2, e11]; exact hbit
  · rw [e2, e3, e4, e5, e6, e11]; exact hlk
  · rw [e2, e3, e4, e5, e6]; exact hrdy

theorem inv_lit (c a0 a1 a2 a3 a4 a5 a6 a7 a8 a9 a10 a11 cr : Nat) (ar mip : Bool)
    (mst ut : Int) :
    Inv c ⟨[a0, a1, a2, a3, a4, a5, a6, a7, a8, a9, a10, a11], cr, ar, mip, mst, ut⟩ ↔
      (a0 < 256 ∧ a1 < 256 ∧ a2 < 256 ∧ a3 < 256 ∧ a4 < 256 ∧ a5 < 256 ∧ a6 < 256 ∧
        a7 < 256 ∧ a8 < 256 ∧ a9 < 256 ∧ a10 < 256 ∧ a11 < 256) ∧
      cr < 12 ∧ a0 = 0x42 ∧ a9 = c ∧ (a11 = 0 ∨ a11 = 1) ∧
      (a2.testBit 1 = true ↔ a11 = 1) ∧
      (a11 = 1 → a3 = 0xFF ∧ a4 = 0xFF ∧ a5 = 0xFF ∧ a6 = 0xFF ∧ a2.testBit 0 = false ∧
        mip = false) ∧
      (a2.testBit 0 = true →
        2000 ≤ a3 + 256 * a4 ∧ a3 + 256 * a4 ≤ 2999 ∧
        5000 ≤ a6 + 256 * a5 ∧ a6 + 256 * a5 ≤ 6999) := by
  constructor
  · rintro ⟨hwf, hptr, hwho, hsess, h01, hbit, hlk, hrdy⟩
    have hall := hwf.2
    simp only [List.mem_cons, List.mem_singleton, List.mem_nil_iff, or_false,
      forall_eq_or_imp, forall_eq] at hall
    exact ⟨hall, hptr, hwho, hsess, h01, hbit, hlk, hrdy⟩
  · rintro ⟨hall, hptr, hwho, hsess, h01, hbit, hlk, hrdy⟩
    refine ⟨⟨rfl, ?_⟩, hptr, hwho, hsess, h01, hbit, hlk, hrdy⟩
    simp only [List.mem_cons, List.mem_singleton, List.mem_nil_iff, or_false,
      forall_eq_or_imp, forall_eq]
    exact hall

theorem inv_unlock (c : Nat) (now : Int) (s : State) (h : Inv c s) :
    Inv c (unlock_device now s) := by
  obtain ⟨a0, a1, a2, a3, a4, a5, a6, a7, a8, a9, a10, a11, hregs⟩ := h.wf.regs
  obtain ⟨regs, cr, ar, mip, mst, ut⟩ := s
  simp only at hregs
  subst hregs
  show Inv c ⟨[a0, a1, a2 &&& bnot8 STATUS_LOCKED, a3, a4, a5, a6, a7, a8, a9, a10, 0],
    cr, ar, mip, mst, now⟩
  rw [inv_lit] at h ⊢
  obtain ⟨hall, hptr, hwho, hsess, h01, hbit, hlk, hrdy⟩ := h
  obtain ⟨b1, b0, blt⟩ := status_clear1 a2 (by omega)
  rw [b1, b0]
  refine ⟨by omega, hptr, hwho, hsess, Or.inl rfl, by simp, by simp, hrdy⟩

theorem inv_lock (c : Nat) (s : State) (h : Inv c s) : Inv c (lock_device s) := by
  obtain ⟨a0, a1, a2, a3, a4, a5, a6, a7, a8, a9, a10, a11, hregs⟩ := h.wf.regs
  obtain ⟨regs, cr, ar, mip, mst, ut⟩ := s
  simp only at hregs
  subst hregs
  show Inv c ⟨[a0, a1, (a2 ||| STATUS_LOCKED) &&& bnot8 STATUS_DATA_READY, 0xFF, 0xFF, 0xFF,
    0xFF, a7, a8, a9, a10, 1], cr, ar, false, mst, ut⟩
  rw [inv_lit] at h ⊢
  obtain ⟨hall, hptr, hwho, hsess, h01, hbit, hlk, hrdy⟩ := h
  obtain ⟨s1, _, slt⟩ := status_set1 a2 (by omega)
  obtain ⟨b0, b1, blt⟩ := status_clear0 _ slt
  rw [b0, b1, s1]
  refine ⟨by omega, hptr, hwho, hsess, Or.inr rfl, by simp, by simp, by simp⟩

theorem inv_start (c : Nat) (now : Int) (s : State) (h : Inv c s) :
    Inv c (start_measurement now s) := by
  unfold start_measurement
  split
  · exact h
  · rename_i hl
    split
    · exact h
    · obtain ⟨a0, a1, a2, a3, a4, a5, a6, a7, a8, a9, a10, a11, hregs⟩ := h.wf.regs
      obtain ⟨regs, cr, ar, mip, mst, ut⟩ := s
      simp only at hregs
      subst hregs
      have hl' : a11 ≠ 1 := hl
      show Inv c ⟨[a0, a1, a2 &&& bnot8 STATUS_DATA_READY, a3, a4, a5, a6, a7, a8, a9, a10,
        a11], cr, ar, true, now, ut⟩
      rw [inv_lit] at h ⊢
      obtain ⟨hall, hptr, hwho, hsess, h01, hbit, hlk, hrdy⟩ := h
      obtain ⟨b0, b1, blt⟩ := status_clear0 a2 (by omega)
      rw [b0, b1]
      exact ⟨by omega, hptr, hwho, hsess, h01, hbit, fun h => absurd h hl', by simp⟩

theorem inv_complete (c r1 r2 : Nat) (s : State) (h : Inv c s)
    (hm : s.measurement_in_progress = true) : Inv c (complete_measurement r1 r2 s) := by
  have ht := complete_measurement_temp_eq r1
  have hh := complete_measurement_humid_eq r2
  have t3 := byte_pair (complete_measurement_temp r1) (by rw [ht]; norm_num; omega)
  have u3 := byte_pair (complete_measurement_humid r2) (by rw [hh]; norm_num; omega)
  obtain ⟨a0, a1, a2, a3, a4, a5, a6, a7, a8, a9, a10, a11, hregs⟩ := h.wf.regs
  obtain ⟨regs, cr, ar, mip, mst, ut⟩ := s
  simp only at hregs hm
  subst hregs hm
  show Inv c ⟨[a0, a1, a2 ||| STATUS_DATA_READY, complete_measurement_temp r1 &&& 0xFF,
    (complete_measurement_temp r1 >>> 8) &&& 0xFF, (complete_measurement_humid r2 >>> 8) &&& 0xFF,
    complete_measurement_humid r2 &&& 0xFF, a7, a8, a9, a10, a11], cr, ar, false, mst, ut⟩
  rw [inv_lit] at h ⊢
  obtain ⟨hall, hptr, hwho, hsess, h01, hbit, hlk, hrdy⟩ := h
  obtain ⟨s0, s1, slt⟩ := status_set0 a2 (by omega)
  have hnl : a11 ≠ 1 := fun h => by simpa using (hlk h).2.2.2.2.2
  rw [s0, s1, t3, u3]
  have m1 : complete_measurement_temp r1 &&& 0xFF < 256 :=
    Nat.lt_of_le_of_lt Nat.and_le_right (by norm_num)
  have m2 : (complete_measurement_temp r1 >>> 8) &&& 0xFF < 256 :=
    Nat.lt_of_le_of_lt Nat.and_le_right (by norm_num)
  have m3 : complete_measurement_humid r2 &&& 0xFF < 256 :=
    Nat.lt_of_le_of_lt Nat.and_le_right (by norm_num)
  have m4 : (complete_measurement_humid r2 >>> 8) &&& 0xFF < 256 :=
    Nat.lt_of_le_of_lt Nat.and_le_right (by norm_num)
  exact ⟨by omega, hptr, hwho, hsess, h01, hbit, fun h => absurd h hnl,
    fun _ => ⟨by omega, by omega, by omega, by omega⟩⟩

theorem writable_of_not_readonly (i : Nat) (h : reg_readonly.getD i false = false) :
    i = REG_CTRL1 ∨ i = REG_CONFIG ∨ i = REG_PADDING ∨ i = REG_UNLOCK ∨ REG_COUNT ≤ i := by
  by_cases hi : i < 12
  · interval_cases i <;> first | exact absurd h (by decide) | decide
  · exact Or.inr (Or.inr (Or.inr (Or.inr (by show 12 ≤ i; omega))))

theorem inv_write_received (c : Nat) (now : Int) (v : Nat) (s : State) (h : Inv c s)
    (hv : v < 256) : Inv c (target_write_received now v s) := by
  have hmod : ∀ n : Nat, n % REG_COUNT < REG_COUNT := fun n => Nat.mod_lt _ (by norm_num)
  cases hf : s.reg_addr_received with
  | false =>
    rw [twr_addr now v s hf]
    exact h.of_eq rfl rfl (hmod _)
  | true =>
    cases hro : reg_readonly.getD s.current_reg false with
    | true =>
      rw [twr_readonly now v s hf hro]
      exact h.of_eq rfl rfl (hmod _)
    | false =>
      have hw := inv_wr c s h s.current_reg v hv (writable_of_not_readonly _ hro)
      by_cases h1 : s.current_reg = REG_CTRL1 ∧ v &&& 0x01 ≠ 0
      · rw [twr_ctrl1_start now v s hf h1.1 h1.2]
        rw [h1.1] at hw
        exact (inv_start c now _ hw).of_eq rfl rfl (hmod _)
      · by_cases h2 : s.current_reg = REG_UNLOCK
        · rw [h2] at hw
          by_cases h3 : v = rd s REG_SESSION_CODE
          · rw [twr_unlock_ok now v s hf h2 h3]
            exact (inv_unlock c now _ hw).of_eq rfl rfl (hmod _)
          · rw [twr_unlock_bad now v s hf h2 h3]
            exact hw.of_eq rfl rfl (hmod _)
        · rw [twr_plain now v s hf hro h1 h2]
          exact hw.of_eq rfl rfl (hmod _)

theorem inv_step (c : Nat) (s : State) (e : Event) (h : Inv c s) (he : e.valid) :
    Inv c (step s e) := by
  cases e with
  | write_requested => exact h.of_eq rfl rfl h.ptr
  | write_received now val => exact inv_write_received c now val s h he
  | read_requested => exact h
  | read_processed => exact h.of_eq rfl rfl (Nat.mod_lt _ (by norm_num))
  | stop => exact h
  | lock_timeout now =>
    show Inv c (lock_timeout_handler now s)
    unfold lock_timeout_handler
    split
    · split
      · exact inv_lock c s h
      · exact h
    · exact h
  | main_poll uptime r1 r2 =>
    show Inv c (i2c_slave_main_iter uptime r1 r2 s)
    unfold i2c_slave_main_iter
    simp only []
    split
    · rename_i hc
      exact inv_complete c r1 r2 s h hc.1
    · exact h

theorem inv_reachableFrom (c : Nat) (s0 s : State) (h0 : Inv c s0) (h : ReachableFrom s0 s) :
    Inv c s := by
  induction h with
  | start => exact h0
  | next s e _ he ih => exact inv_step c s e ih he

theorem inv_reachable (s : State) (h : Reachable s) : ∃ c, Inv c s := by
  obtain ⟨rand, _, hr⟩ := h
  exact ⟨_, inv_reachableFrom _ _ _ (inv_init rand) hr⟩

/-! ## Invariants of the reachable states -/

/-- C8. In every state reachable from initialization, `LOCK_STATUS` is `0x00`
or `0x01`, and `STATUS` bit 1 is set exactly when `LOCK_STATUS = 0x01`. -/
theorem reachable_lock_status_mirror (s : State) (h : Reachable s) :
    (rd s REG_LOCK_STATUS = 0x00 ∨ rd s REG_LOCK_STATUS = 0x01) ∧
    ((rd s REG_STATUS).testBit 1 = true ↔ rd s REG_LOCK_STATUS = 0x01) := by
  obtain ⟨c, hi⟩ := inv_reachable s h
  exact ⟨hi.lock01, hi.locked_bit⟩

/-- The lock mirror in the sample state `measured`, which is unlocked. -/
theorem reachable_lock_status_mirror_witness :
    Reachable measured ∧
    (rd measured REG_LOCK_STATUS = 0x00 ∨ rd measured REG_LOCK_STATUS = 0x01) ∧
    ((rd measured REG_STATUS).testBit 1 = true ↔ rd measured REG_LOCK_STATUS = 0x01) :=
  ⟨reachable_measured, reachable_lock_status_mirror measured reachable_measured⟩

/-- C9. In every state reachable from initialization in which the device is
locked (`LOCK_STATUS = 0x01`), `TEMP_L`, `TEMP_H`, `HUMID_H` and `HUMID_L` are
`0xFF`, `STATUS` bit 0 is clear and no measurement is in progress; hence no
completion poll completes a measurement there. -/
theorem reachable_locked_regs (s : State) (h : Reachable s)
    (hl : rd s REG_LOCK_STATUS = 0x01) :
    rd s REG_TEMP_L = 0xFF ∧ rd s REG_TEMP_H = 0xFF ∧ rd s REG_HUMID_H = 0xFF ∧
    rd s REG_HUMID_L = 0xFF ∧ (rd s REG_STATUS).testBit 0 = false ∧
    s.measurement_in_progress = false ∧
    ∀ (uptime : Int) (r1 r2 : Nat), i2c_slave_main_iter uptime r1 r2 s = s := by
  obtain ⟨c, hi⟩ := inv_reachable s h
  obtain ⟨h1, h2, h3, h4, h5, h6⟩ := hi.locked_regs hl
  refine ⟨h1, h2, h3, h4, h5, h6, ?_⟩
  intro uptime r1 r2
  unfold i2c_slave_main_iter
  rw [h6]
  simp

/-- The locked sample state `booted`. -/
theorem reachable_locked_regs_witness :
    Reachable booted ∧ rd booted REG_LOCK_STATUS = 0x01 ∧
    rd booted REG_TEMP_L = 0xFF ∧ booted.measurement_in_progress = false :=
  ⟨reachable_booted, rfl, (reachable_locked_regs booted reachable_booted rfl).1,
    (reachable_locked_regs booted reachable_booted rfl).2.2.2.2.2.1⟩

/-! ## The address pointer -/

theorem twr_data_ptr (now : Int) (v : Nat) (s : State) (hf : s.reg_addr_received = true) :
    (target_write_received now v s).current_reg = (s.current_reg + 1) % REG_COUNT ∧
    (target_write_received now v s).reg_addr_received = true := by
  cases hro : reg_readonly.getD s.current_reg false with
  | true =>
    rw [twr_readonly now v s hf hro]
    exact ⟨rfl, hf⟩
  | false =>
    by_cases h1 : s.current_reg = REG_CTRL1 ∧ v &&& 0x01 ≠ 0
    · rw [twr_ctrl1_start now v s hf h1.1 h1.2, h1.1]
      exact ⟨rfl, (start_measurement_reg_addr_received now _).trans hf⟩
    · by_cases h2 : s.current_reg = REG_UNLOCK
      · by_cases h3 : v = rd s REG_SESSION_CODE
        · rw [twr_unlock_ok now v s hf h2 h3, h2]
          exact ⟨rfl, hf⟩
        · rw [twr_unlock_bad now v s hf h2 h3, h2]
          exact ⟨rfl, hf⟩
      · rw [twr_plain now v s hf hro h1 h2]
        exact ⟨rfl, hf⟩

theorem run_cons (s : State) (e : Event) (es : List Event) :
    run s (e :: es) = run (step s e) es := rfl

theorem run_data_ptr (data : List (Int × Nat)) (s : State) (hf : s.reg_addr_received = true)
    (hp : s.current_reg < REG_COUNT) :
    (run s (data.map (fun d => Event.write_received d.1 d.2))).current_reg =
      (s.current_reg + data.length) % REG_COUNT := by
  induction data generalizing s with
  | nil => exact (Nat.mod_eq_of_lt hp).symm
  | cons d ds ih =>
    obtain ⟨h1, h2⟩ := twr_data_ptr d.1 d.2 s hf
    rw [List.map_cons, run_cons]
    show (run (target_write_received d.1 d.2 s) _).current_reg = _
    rw [ih _ h2 (by rw [h1]; exact Nat.mod_lt _ (by norm_num)), h1, List.length_cons]
    show ((s.current_reg + 1) % 12 + ds.length) % 12 = (s.current_reg + (ds.length + 1)) % 12
    omega

theorem run_read_ptr (N : Nat) (s : State) (hp : s.current_reg < REG_COUNT) :
    (run s (List.replicate N Event.read_processed)).current_reg =
      (s.current_reg + N) % REG_COUNT := by
  induction N generalizing s with
  | zero => exact (Nat.mod_eq_of_lt hp).symm
  | succ n ih =>
    rw [List.replicate_succ, run_cons]
    have h1 : (step s Event.read_processed).current_reg = (s.current_reg + 1) % REG_COUNT := rfl
    rw [ih _ (by rw [h1]; exact Nat.mod_lt _ (by norm_num)), h1]
    show ((s.current_reg + 1) % 12 + n) % 12 = (s.current_reg + (n + 1)) % 12
    omega

/-- C10. A write transaction (write-start, address byte `A`, then the data
bytes `data`, each with the uptime of its write) ends with the address pointer
at `(A + N) mod 12`, `N` the number of data bytes, whatever the registers the
writes hit; and from a pointer `P < 12`, `N` read-continue events end with the
pointer at `(P + N) mod 12`. -/
theorem transaction_pointer_law (s : State) (A : Nat) (now : Int) (data : List (Int × Nat))
    (N : Nat) :
    (run s ([Event.write_requested, Event.write_received now A] ++
        data.map (fun d => Event.write_received d.1 d.2))).current_reg =
      (A + data.length) % REG_COUNT ∧
    (s.current_reg < REG_COUNT →
      (run s (List.replicate N Event.read_processed)).current_reg =
        (s.current_reg + N) % REG_COUNT) := by
  refine ⟨?_, run_read_ptr N s⟩
  rw [List.cons_append, List.cons_append, List.nil_append, run_cons, run_cons]
  have h : step (step s Event.write_requested) (Event.write_received now A) =
      { s with current_reg := A % REG_COUNT, reg_addr_received := true } := rfl
  rw [h, run_data_ptr data _ rfl (Nat.mod_lt _ (by norm_num))]
  show (A % 12 + data.length) % 12 = (A + data.length) % 12
  omega

/-- A write transaction of three data bytes from address byte `0xFE`, and
fourteen read-continue events, from the sample state `booted`. -/
theorem transaction_pointer_law_witness :
    (run booted ([Event.write_requested, Event.write_received 10 0xFE] ++
        [(20, 1), (30, 2), (40, 3)].map (fun d => Event.write_received d.1 d.2))).current_reg =
      (0xFE + 3) % REG_COUNT ∧
    booted.current_reg < REG_COUNT ∧
    (run booted (List.replicate 14 Event.read_processed)).current_reg =
      (booted.current_reg + 14) % REG_COUNT :=
  ⟨(transaction_pointer_law booted 0xFE 10 [(20, 1), (30, 2), (40, 3)] 14).1, by decide,
    (transaction_pointer_law booted 0xFE 10 [(20, 1), (30, 2), (40, 3)] 14).2 (by decide)⟩

/-! ## Read transactions -/

theorem rd_congr {s s' : State} (h : s'.registers = s.registers) (i : Nat) : rd s' i = rd s i := by
  unfold rd; rw [h]

theorem read_burst_spec (n : Nat) (s : State) :
    (read_burst n s).2 =
      (List.range n).map (fun i => rd s ((s.current_reg + (i + 1)) % REG_COUNT)) ∧
    (read_burst n s).1.registers = s.registers := by
  induction n generalizing s with
  | zero => exact ⟨rfl, rfl⟩
  | succ n ih =>
    obtain ⟨h1, h2⟩ := ih (target_read_processed s).1
    have hr : (target_read_processed s).1.registers = s.registers := rfl
    have hc : (target_read_processed s).1.current_reg = (s.current_reg + 1) % REG_COUNT := rfl
    have hb : (target_read_processed s).2 = rd s ((s.current_reg + 1) % REG_COUNT) := rfl
    refine ⟨?_, h2.trans hr⟩
    show (target_read_processed s).2 :: (read_burst n (target_read_processed s).1).2 = _
    rw [h1, hb, List.range_succ_eq_map, List.map_cons, List.map_map]
    congr 1
    apply List.map_congr_left
    intro i _
    show rd (target_read_processed s).1 (((target_read_processed s).1.current_reg + (i + 1)) % 12)
      = rd s ((s.current_reg + (i + 1 + 1)) % 12)
    rw [rd_congr hr, hc]
    congr 1
    show ((s.current_reg + 1) % 12 + (i + 1)) % 12 = (s.current_reg + (i + 1 + 1)) % 12
    omega

/-- C11. From an address pointer `P < 12`, a read transaction of `k ≥ 1` bytes
(one read-request, then `k - 1` read-continue events) returns the bytes
`registers[(P + i) mod 12]` for `i = 0 .. k - 1`; the read-request leaves the
state, so also the pointer, as it is, and neither the read events nor the stop
event change the register file. -/
theorem read_transaction_spec (s : State) (k : Nat) (hP : s.current_reg < REG_COUNT)
    (hk : 1 ≤ k) :
    (read_transaction k s).2 =
      (List.range k).map (fun i => rd s ((s.current_reg + i) % REG_COUNT)) ∧
    (target_read_requested s).1 = s ∧
    (read_transaction k s).1.registers = s.registers ∧
    (target_read_processed s).1.registers = s.registers ∧
    (target_stop s).registers = s.registers := by
  obtain ⟨n, rfl⟩ : ∃ n, k = n + 1 := ⟨k - 1, by omega⟩
  obtain ⟨h1, h2⟩ := read_burst_spec n s
  refine ⟨?_, rfl, h2, rfl, rfl⟩
  show rd s s.current_reg :: (read_burst n s).2 = _
  rw [h1, List.range_succ_eq_map, List.map_cons, List.map_map]
  congr 1
  rw [Nat.add_zero, Nat.mod_eq_of_lt hP]

/-- A read transaction of fourteen bytes from the sample state `measured`,
whose pointer is at `STATUS`: it wraps around the register file. -/
theorem read_transaction_spec_witness :
    measured.current_reg < REG_COUNT ∧ 1 ≤ 14 ∧
    (read_transaction 14 measured).2 =
      (List.range 14).map (fun i => rd measured ((measured.current_reg + i) % REG_COUNT)) ∧
    (read_transaction 14 measured).2 = [1, 183, 11, 27, 87, 0, 0, 52, 52, 0, 66, 1, 1, 183] :=
  ⟨by decide, by decide, (read_transaction_spec measured 14 (by decide) (by decide)).1, by decide⟩

/-! ## The controller's reads -/

theorem u16_combine (b0 b1 : Nat) (h0 : b0 < 256) (h1 : b1 < 256) :
    ((b1 % 2 ^ 16) <<< 8 ||| b0) % 2 ^ 16 = b0 + 256 * b1 := by
  have e1 : b1 % 2 ^ 16 = b1 := Nat.mod_eq_of_lt (by norm_num; omega)
  have e2 : 2 ^ 8 * b1 + b0 = 2 ^ 8 * b1 ||| b0 := Nat.mul_add_lt_is_or (by norm_num; omega) b1
  rw [e1, Nat.shiftLeft_eq, Nat.mul_comm, ← e2]
  norm_num
  omega

theorem i2c_read_u16_eq (reg : Nat) (s : State) (hwf : s.WF) :
    (i2c_read_u16 reg s).2 =
      rd s (reg % REG_COUNT) + 256 * rd s ((reg % REG_COUNT + 1) % REG_COUNT) :=
  u16_combine _ _ (rd_lt s hwf _) (rd_lt s hwf _)

theorem i2c_read_reg_eq (reg : Nat) (s : State) :
    i2c_read_reg reg s =
      ({ s with current_reg := reg % REG_COUNT, reg_addr_received := true },
        rd s (reg % REG_COUNT)) := rfl

theorem i2c_write_reg_eq (now : Int) (reg val : Nat) (s : State) :
    i2c_write_reg now reg val s =
      target_write_received now val
        { s with current_reg := reg % REG_COUNT, reg_addr_received := true } := rfl

/-- After `complete_measurement`, `i2c_read_u16` from `TEMP_L` yields `temp`,
and `i2c_read_u16` from `HUMID_H` yields the two bytes of `humid` swapped. -/
theorem complete_measurement_read_u16 (s : State) (r1 r2 : Nat) (hwf : s.WF) :
    (i2c_read_u16 REG_TEMP_L (complete_measurement r1 r2 s)).2 = complete_measurement_temp r1 ∧
    (i2c_read_u16 REG_HUMID_H (complete_measurement r1 r2 s)).2 =
      complete_measurement_humid r2 / 256 + 256 * (complete_measurement_humid r2 % 256) := by
  have ht := complete_measurement_temp_eq r1
  have hh := complete_measurement_humid_eq r2
  have t3 := byte_pair (complete_measurement_temp r1) (by rw [ht]; norm_num; omega)
  have m1 : ∀ x : Nat, x &&& 0xFF < 256 := fun x =>
    Nat.lt_of_le_of_lt Nat.and_le_right (by norm_num)
  have l1 : complete_measurement_humid r2 &&& 0xFF = complete_measurement_humid r2 % 256 :=
    Nat.and_pow_two_sub_one_eq_mod _ 8
  have l2 : (complete_measurement_humid r2 >>> 8) &&& 0xFF =
      complete_measurement_humid r2 / 256 := by
    have e : (complete_measurement_humid r2 >>> 8) &&& 0xFF =
        (complete_measurement_humid r2 >>> 8) % 256 := Nat.and_pow_two_sub_one_eq_mod _ 8
    rw [e, Nat.shiftRight_eq_div_pow, hh]
    norm_num
    omega
  obtain ⟨a0, a1, a2, a3, a4, a5, a6, a7, a8, a9, a10, a11, hregs⟩ := hwf.regs
  obtain ⟨regs, cr, ar, mip, mst, ut⟩ := s
  simp only at hregs
  subst hregs
  constructor
  · exact (u16_combine _ _ (m1 _) (m1 _)).trans t3
  · refine (u16_combine _ _ (m1 _) (m1 _)).trans ?_
    show ((complete_measurement_humid r2 >>> 8) &&& 0xFF) +
      256 * (complete_measurement_humid r2 &&& 0xFF) = _
    rw [l1, l2]

/-- C12. The little-endian pair read of the humidity does not recover the
generated value: in the sample state `measured`, where the measurement completed
with `temp = 2999` and `humid = 6999 = 0x1B57`, `i2c_read_u16` from `TEMP_L`
yields 2999 but `i2c_read_u16` from `HUMID_H` yields `0x571B = 22299`, because
`complete_measurement` stores the high byte at address 5 (`REG_HUMID_H`) and
the low byte at address 6 (`REG_HUMID_L`). -/
theorem humidity_read_byte_swapped :
    Reachable measured ∧ measured = complete_measurement 1999 3999 measuring ∧
    complete_measurement_temp 1999 = 2999 ∧ complete_measurement_humid 3999 = 6999 ∧
    (i2c_read_u16 REG_TEMP_L measured).2 = 2999 ∧
    (i2c_read_u16 REG_HUMID_H measured).2 = 22299 ∧
    rd measured REG_HUMID_H = 0x1B ∧ rd measured REG_HUMID_L = 0x57 :=
  ⟨reachable_measured, by decide, by decide, by decide, by decide, by decide, by decide,
    by decide⟩

/-- C13. In every state reached from the initialization with the random value
`rand`, `WHO_AM_I` holds `0x42` and `SESSION_CODE` holds the byte that
`i2c_slave_init` stored in it. -/
theorem reachable_identity_regs (rand : Nat) (s : State)
    (h : ReachableFrom (i2c_slave_init rand initial_state) s) :
    rd s REG_WHO_AM_I = 0x42 ∧
    rd s REG_SESSION_CODE = rd (i2c_slave_init rand initial_state) REG_SESSION_CODE := by
  have hi := inv_reachableFrom _ _ _ (inv_init rand) h
  exact ⟨hi.who, hi.session⟩

theorem reachableFrom_booted_measured : ReachableFrom booted measured :=
  reachableFrom_trans
    (reachableFrom_trans
      (reachableFrom_trans (reachableFrom_run booted _ (by decide))
        (reachableFrom_run at_unlock _ (by decide)))
      (reachableFrom_run at_ctrl1_unlocked _ (by decide)))
    (reachableFrom_run measuring _ (by decide))

/-- The identity registers in the sample state `measured`, reached from the
initialization with the random value `0x1234`. -/
theorem reachable_identity_regs_witness :
    ReachableFrom (i2c_slave_init 0x1234 initial_state) measured ∧
    rd measured REG_WHO_AM_I = 0x42 ∧ rd measured REG_SESSION_CODE = 0x34 :=
  ⟨reachableFrom_booted_measured,
    (reachable_identity_regs 0x1234 measured reachableFrom_booted_measured).1,
    (reachable_identity_regs 0x1234 measured reachableFrom_booted_measured).2⟩

theorem session_code_eq (rand : Nat) : (rand &&& 0xFF) % 2 ^ 8 = rand % 256 := by
  have h : rand &&& 0xFF = rand % 256 := Nat.and_pow_two_sub_one_eq_mod rand 8
  rw [h]; norm_num

/-- C14. For every random value `r`, the state after `i2c_slave_init` has the
register file `[0x42, 0x00, 0x02, 0xFF, 0xFF, 0xFF, 0xFF, 0x00, 0x00, r mod 256,
0x00, 0x01]`, address pointer 0, no address received, no measurement in progress
and both timestamps 0; so `LOCK_STATUS` is Locked, `STATUS` bit 1 is set and
bit 0 clear, and the temperature and humidity registers are `0xFF`. -/
theorem i2c_slave_init_state (r : Nat) :
    i2c_slave_init r initial_state =
      { registers := [0x42, 0x00, 0x02, 0xFF, 0xFF, 0xFF, 0xFF, 0x00, 0x00, r % 256, 0x00, 0x01]
        current_reg := 0
        reg_addr_received := false
        measurement_in_progress := false
        measurement_start_time_ms := 0
        unlock_time_ms := 0 } ∧
    rd (i2c_slave_init r initial_state) REG_LOCK_STATUS = LOCKED ∧
    (rd (i2c_slave_init r initial_state) REG_STATUS).testBit 1 = true ∧
    (rd (i2c_slave_init r initial_state) REG_STATUS).testBit 0 = false ∧
    rd (i2c_slave_init r initial_state) REG_TEMP_L = 0xFF ∧
    rd (i2c_slave_init r initial_state) REG_TEMP_H = 0xFF ∧
    rd (i2c_slave_init r initial_state) REG_HUMID_H = 0xFF ∧
    rd (i2c_slave_init r initial_state) REG_HUMID_L = 0xFF := by
  refine ⟨?_, rfl, ?_, ?_, rfl, rfl, rfl, rfl⟩
  · rw [← session_code_eq r]; rfl
  · exact (by decide : (2 : Nat).testBit 1 = true)
  · exact (by decide : (2 : Nat).testBit 0 = false)

/-! ## The end-to-end scenario -/

theorem lock_timeout_handler_fire (now : Int) (s : State)
    (hu : rd s REG_LOCK_STATUS = UNLOCKED) (ht : now - s.unlock_time_ms > LOCK_TIMEOUT_MS) :
    lock_timeout_handler now s = lock_device s := by
  unfold lock_timeout_handler
  rw [if_pos hu, if_pos ht]

theorem scn_code_state (rand : Nat) (t1 : Int) :
    scn_code rand t1 =
      (⟨[0x42, 0x01, 0x02, 0xFF, 0xFF, 0xFF, 0xFF, 0x00, 0x00, (rand &&& 0xFF) % 2 ^ 8, 0x00,
        0x01], 9, true, false, 0, 0⟩, (rand &&& 0xFF) % 2 ^ 8) := rfl

theorem scn_unlock_state (rand : Nat) (t1 t2 : Int) :
    scn_unlock rand t1 t2 =
      ⟨[0x42, 0x01, 0x00, 0xFF, 0xFF, 0xFF, 0xFF, 0x00, 0x00, (rand &&& 0xFF) % 2 ^ 8,
        (rand &&& 0xFF) % 2 ^ 8, 0x00], 11, true, false, 0, t2⟩ := by
  unfold scn_unlock
  rw [scn_code_state]
  have key : ∀ c : Nat, target_write_received t2 c
      ⟨[0x42, 0x01, 0x02, 0xFF, 0xFF, 0xFF, 0xFF, 0x00, 0x00, c, 0x00, 0x01], REG_UNLOCK, true,
        false, 0, 0⟩ =
      ⟨[0x42, 0x01, 0x02 &&& bnot8 STATUS_LOCKED, 0xFF, 0xFF, 0xFF, 0xFF, 0x00, 0x00, c, c,
        0x00], 11, true, false, 0, t2⟩ := fun c => twr_unlock_ok t2 c _ rfl rfl rfl
  exact key _

theorem scn_start_state (rand : Nat) (t1 t2 t3 : Int) :
    scn_start rand t1 t2 t3 =
      ⟨[0x42, 0x01, 0x00, 0xFF, 0xFF, 0xFF, 0xFF, 0x00, 0x00, (rand &&& 0xFF) % 2 ^ 8,
        (rand &&& 0xFF) % 2 ^ 8, 0x00], 2, true, true, t3, t2⟩ := by
  unfold scn_start scn_lock_status
  rw [scn_unlock_state]
  show (⟨[0x42, 0x01, 0x00 &&& bnot8 STATUS_DATA_READY, 0xFF, 0xFF, 0xFF, 0xFF, 0x00, 0x00,
    (rand &&& 0xFF) % 2 ^ 8, (rand &&& 0xFF) % 2 ^ 8, 0x00], 2, true, true, t3, t2⟩ : State) = _
  rfl

theorem scn_poll_state (rand : Nat) (t1 t2 t3 t4 : Int) (r1 r2 : Nat)
    (h4 : 0 ≤ t4) (h4' : t4 < 2 ^ 32) (hpoll : t4 - t3 ≥ 500) :
    scn_poll rand t1 t2 t3 t4 r1 r2 =
      ⟨[0x42, 0x01, 0x01, complete_measurement_temp r1 &&& 0xFF,
        (complete_measurement_temp r1 >>> 8) &&& 0xFF,
        (complete_measurement_humid r2 >>> 8) &&& 0xFF,
        complete_measurement_humid r2 &&& 0xFF, 0x00, 0x00, (rand &&& 0xFF) % 2 ^ 8,
        (rand &&& 0xFF) % 2 ^ 8, 0x00], 2, true, false, t3, t2⟩ := by
  unfold scn_poll
  rw [scn_start_state, main_poll_of_uptime_lt _ _ _ _ h4 h4', if_pos ⟨rfl, hpoll⟩]
  show (⟨[0x42, 0x01, 0x00 ||| STATUS_DATA_READY, complete_measurement_temp r1 &&& 0xFF,
    (complete_measurement_temp r1 >>> 8) &&& 0xFF,
    (complete_measurement_humid r2 >>> 8) &&& 0xFF,
    complete_measurement_humid r2 &&& 0xFF, 0x00, 0x00, (rand &&& 0xFF) % 2 ^ 8,
    (rand &&& 0xFF) % 2 ^ 8, 0x00], 2, true, false, t3, t2⟩ : State) = _
  rfl

theorem scn_timeout_state (rand : Nat) (t1 t2 t3 t4 t5 : Int) (r1 r2 : Nat)
    (h4 : 0 ≤ t4) (h4' : t4 < 2 ^ 32) (hpoll : t4 - t3 ≥ 500) (hto : t5 - t2 > 5000) :
    scn_timeout rand t1 t2 t3 t4 t5 r1 r2 =
      ⟨[0x42, 0x01, 0x02, 0xFF, 0xFF, 0xFF, 0xFF, 0x00, 0x00, (rand &&& 0xFF) % 2 ^ 8,
        (rand &&& 0xFF) % 2 ^ 8, 0x01], 2, true, false, t3, t2⟩ := by
  unfold scn_timeout scn_status
  rw [scn_poll_state rand t1 t2 t3 t4 r1 r2 h4 h4' hpoll, i2c_read_reg_eq]
  refine Eq.trans (lock_timeout_handler_fire t5 _ ?_ ?_) ?_
  · rfl
  · exact hto
  show (⟨[0x42, 0x01, (0x01 ||| STATUS_LOCKED) &&& bnot8 STATUS_DATA_READY, 0xFF, 0xFF, 0xFF,
    0xFF, 0x00, 0x00, (rand &&& 0xFF) % 2 ^ 8, (rand &&& 0xFF) % 2 ^ 8, 0x01], 2, true, false,
    t3, t2⟩ : State) = _
  rfl

/-- C15. The end-to-end scenario, for every random value `rand` at initialization
(session code `rand mod 256`) and all random values `r1`, `r2` of the
measurement, with the completion poll at an uptime `t4 < 2 ^ 32` at least
500 ms after the start write at `t3`, and the timeout check at `t5` more than
5000 ms after the unlock at `t2`: the read of `WHO_AM_I` returns `0x42`; the
start request while locked leaves the device locked and `STATUS` bit 0 clear;
the read of `SESSION_CODE` returns the session code; after it is written to
`UNLOCK` the read of `LOCK_STATUS` returns `0x00`; after the start request and
the poll the read of `STATUS` has bit 0 set and `TEMP_L + 256 * TEMP_H`,
`HUMID_L + 256 * HUMID_H` lie in `[2000, 2999]` and `[5000, 6999]`; after the
timeout check the read of `LOCK_STATUS` returns `0x01`. -/
theorem scenario_end_to_end (rand r1 r2 : Nat) (t1 t2 t3 t4 t5 : Int)
    (h4 : 0 ≤ t4) (h4' : t4 < 2 ^ 32) (hpoll : t4 - t3 ≥ 500) (hto : t5 - t2 > 5000) :
    (scn_who rand).2 = 0x42 ∧
    rd (scn_locked_start rand t1) REG_LOCK_STATUS = LOCKED ∧
    (rd (scn_locked_start rand t1) REG_STATUS).testBit 0 = false ∧
    (scn_code rand t1).2 = rand % 256 ∧
    (scn_lock_status rand t1 t2).2 = 0x00 ∧
    (scn_status rand t1 t2 t3 t4 r1 r2).2.testBit 0 = true ∧
    2000 ≤ rd (scn_status rand t1 t2 t3 t4 r1 r2).1 REG_TEMP_L +
      256 * rd (scn_status rand t1 t2 t3 t4 r1 r2).1 REG_TEMP_H ∧
    rd (scn_status rand t1 t2 t3 t4 r1 r2).1 REG_TEMP_L +
      256 * rd (scn_status rand t1 t2 t3 t4 r1 r2).1 REG_TEMP_H ≤ 2999 ∧
    5000 ≤ rd (scn_status rand t1 t2 t3 t4 r1 r2).1 REG_HUMID_L +
      256 * rd (scn_status rand t1 t2 t3 t4 r1 r2).1 REG_HUMID_H ∧
    rd (scn_status rand t1 t2 t3 t4 r1 r2).1 REG_HUMID_L +
      256 * rd (scn_status rand t1 t2 t3 t4 r1 r2).1 REG_HUMID_H ≤ 6999 ∧
    (scn_relocked rand t1 t2 t3 t4 t5 r1 r2).2 = 0x01 := by
  have ht := complete_measurement_temp_eq r1
  have hh := complete_measurement_humid_eq r2
  have t3' := byte_pair (complete_measurement_temp r1) (by rw [ht]; norm_num; omega)
  have u3' := byte_pair (complete_measurement_humid r2) (by rw [hh]; norm_num; omega)
  have hs : scn_status rand t1 t2 t3 t4 r1 r2 =
      (⟨[0x42, 0x01, 0x01, complete_measurement_temp r1 &&& 0xFF,
        (complete_measurement_temp r1 >>> 8) &&& 0xFF,
        (complete_measurement_humid r2 >>> 8) &&& 0xFF,
        complete_measurement_humid r2 &&& 0xFF, 0x00, 0x00, (rand &&& 0xFF) % 2 ^ 8,
        (rand &&& 0xFF) % 2 ^ 8, 0x00], 2, true, false, t3, t2⟩, 0x01) := by
    unfold scn_status
    rw [scn_poll_state rand t1 t2 t3 t4 r1 r2 h4 h4' hpoll]
    rfl
  have hr : (scn_relocked rand t1 t2 t3 t4 t5 r1 r2).2 = 0x01 := by
    unfold scn_relocked
    rw [scn_timeout_state rand t1 t2 t3 t4 t5 r1 r2 h4 h4' hpoll hto]
    rfl
  have hl : (scn_lock_status rand t1 t2).2 = 0x00 := by
    unfold scn_lock_status
    rw [scn_unlock_state]
    rfl
  have hT : rd (scn_status rand t1 t2 t3 t4 r1 r2).1 REG_TEMP_L +
      256 * rd (scn_status rand t1 t2 t3 t4 r1 r2).1 REG_TEMP_H =
      complete_measurement_temp r1 := by rw [hs]; exact t3'
  have hH : rd (scn_status rand t1 t2 t3 t4 r1 r2).1 REG_HUMID_L +
      256 * rd (scn_status rand t1 t2 t3 t4 r1 r2).1 REG_HUMID_H =
      complete_measurement_humid r2 := by rw [hs]; exact u3'
  refine ⟨rfl, rfl, (by decide : (2 : Nat).testBit 0 = false), session_code_eq rand, hl, ?_,
    ?_, ?_, ?_, ?_, hr⟩
  · rw [hs]; exact (by decide : (1 : Nat).testBit 0 = true)
  · rw [hT]; omega
  · rw [hT]; omega
  · rw [hH]; omega
  · rw [hH]; omega

/-- The scenario with random values `0x1234`, 77, 88 and the uptimes 5, 6, 7,
507 and 5007. -/
theorem scenario_end_to_end_witness :
    (0 : Int) ≤ 507 ∧ (507 : Int) < 2 ^ 32 ∧ (507 : Int) - 7 ≥ 500 ∧ (5007 : Int) - 6 > 5000 ∧
    (scn_who 0x1234).2 = 0x42 ∧ (scn_code 0x1234 5).2 = 0x1234 % 256 ∧
    (scn_status 0x1234 5 6 7 507 77 88).2.testBit 0 = true ∧
    (scn_relocked 0x1234 5 6 7 507 5007 77 88).2 = 0x01 :=
  ⟨by decide, by decide, by decide, by decide,
    (scenario_end_to_end 0x1234 77 88 5 6 7 507 5007 (by decide) (by decide) (by decide)
      (by decide)).1,
    (scenario_end_to_end 0x1234 77 88 5 6 7 507 5007 (by decide) (by decide) (by decide)
      (by decide)).2.2.2.1,
    (scenario_end_to_end 0x1234 77 88 5 6 7 507 5007 (by decide) (by decide) (by decide)
      (by decide)).2.2.2.2.2.1,
    (scenario_end_to_end 0x1234 77 88 5 6 7 507 5007 (by decide) (by decide) (by decide)
      (by decide)).2.2.2.2.2.2.2.2.2.2⟩

/-! ## The address pointer, the stop event and stored writes -/

/-- C16. In every state reachable from initialization the address pointer is
below 12, and the address phase sets it to `b mod 12` for every byte `b`; so the
indices of the accesses of the bus callbacks, `current_reg` in `registers` and
in `reg_readonly` and `(current_reg + 1) mod 12` in `registers`, are within the
bounds of the arrays. -/
theorem reachable_pointer_in_bounds (s : State) (h : Reachable s) :
    s.current_reg < REG_COUNT ∧
    (∀ (now : Int) (b : Nat), s.reg_addr_received = false →
      (target_write_received now b s).current_reg = b % REG_COUNT) ∧
    s.current_reg < s.registers.length ∧
    s.current_reg < reg_readonly.length ∧
    (s.current_reg + 1) % REG_COUNT < s.registers.length := by
  obtain ⟨c, hi⟩ := inv_reachable s h
  have hl : s.registers.length = 12 := hi.wf.1
  have hp : s.current_reg < 12 := hi.ptr
  refine ⟨hp, ?_, by omega, hp, ?_⟩
  · intro now b hf
    rw [twr_addr now b s hf]
  · rw [hl]; exact Nat.mod_lt _ (by norm_num)

/-- The pointer bounds in the sample state `at_unlock`, pointer at 10. -/
theorem reachable_pointer_in_bounds_witness :
    Reachable at_unlock ∧ at_unlock.current_reg < REG_COUNT ∧
    at_unlock.current_reg < at_unlock.registers.length :=
  ⟨reachable_at_unlock, (reachable_pointer_in_bounds at_unlock reachable_at_unlock).1,
    (reachable_pointer_in_bounds at_unlock reachable_at_unlock).2.2.1⟩

/-- C17, as stated, fails: in the sample state `at_unlock` the address has been
received, `target_stop` leaves the flag set, and a write byte `0x34` right after
the stop is taken as data for `UNLOCK` (it unlocks the device and moves the
pointer to 11), not as a register address. -/
theorem target_stop_keeps_flag :
    at_unlock.reg_addr_received = true ∧
    (target_stop at_unlock).reg_addr_received = true ∧
    (target_write_received 20 0x34 (target_stop at_unlock)).current_reg = 11 ∧
    rd (target_write_received 20 0x34 (target_stop at_unlock)) REG_UNLOCK = 0x34 ∧
    rd (target_write_received 20 0x34 (target_stop at_unlock)) REG_LOCK_STATUS = UNLOCKED :=
  ⟨rfl, rfl, by decide, by decide, by decide⟩

/-- C17, amended. `target_stop` changes nothing; the address-received flag is
cleared by `target_write_requested`, which changes nothing else, so that after
a stop and a write-start the next write byte `b` is taken as a register address:
the pointer becomes `b mod 12`, the flag is set and the register file is
unchanged. -/
theorem write_start_resets_flag (s : State) (now : Int) (b : Nat) :
    target_stop s = s ∧
    (target_write_requested s).reg_addr_received = false ∧
    (target_write_requested s).registers = s.registers ∧
    (target_write_requested s).current_reg = s.current_reg ∧
    (target_write_received now b (target_write_requested (target_stop s))).current_reg =
      b % REG_COUNT ∧
    (target_write_received now b (target_write_requested (target_stop s))).reg_addr_received =
      true ∧
    (target_write_received now b (target_write_requested (target_stop s))).registers =
      s.registers :=
  ⟨rfl, rfl, rfl, rfl, rfl, rfl, rfl⟩

/-- C18. In every state reachable from initialization, if `STATUS` bit 0
(data-ready) is set then the device is unlocked, `TEMP_L + 256 * TEMP_H` is in
`[2000, 2999]` and `HUMID_L + 256 * HUMID_H` is in `[5000, 6999]`. -/
theorem reachable_data_ready_valid (s : State) (h : Reachable s)
    (hr : (rd s REG_STATUS).testBit 0 = true) :
    rd s REG_LOCK_STATUS = UNLOCKED ∧
    2000 ≤ rd s REG_TEMP_L + 256 * rd s REG_TEMP_H ∧
    rd s REG_TEMP_L + 256 * rd s REG_TEMP_H ≤ 2999 ∧
    5000 ≤ rd s REG_HUMID_L + 256 * rd s REG_HUMID_H ∧
    rd s REG_HUMID_L + 256 * rd s REG_HUMID_H ≤ 6999 := by
  obtain ⟨c, hi⟩ := inv_reachable s h
  refine ⟨?_, hi.ready hr⟩
  rcases hi.lock01 with hu | hl
  · exact hu
  · have := (hi.locked_regs hl).2.2.2.2.1
    rw [hr] at this
    exact absurd this (by decide)

/-- The sample state `measured`, in which data-ready is set. -/
theorem reachable_data_ready_valid_witness :
    Reachable measured ∧ (rd measured REG_STATUS).testBit 0 = true ∧
    rd measured REG_LOCK_STATUS = UNLOCKED ∧
    2000 ≤ rd measured REG_TEMP_L + 256 * rd measured REG_TEMP_H :=
  ⟨reachable_measured, by decide,
    (reachable_data_ready_valid measured reachable_measured (by decide)).1,
    (reachable_data_ready_valid measured reachable_measured (by decide)).2.1⟩

theorem rd_start_measurement_ne (now : Int) (s : State) (j : Nat) (hj : j ≠ REG_STATUS) :
    rd (start_measurement now s) j = rd s j := by
  unfold start_measurement
  split
  · rfl
  · split
    · rfl
    · exact (rd_wr_ne _ _ _ _ (Ne.symm hj)).trans (rd_congr rfl j)

theorem rd_unlock_device_ne (now : Int) (s : State) (j : Nat) (hj : j ≠ REG_STATUS)
    (hj' : j ≠ REG_LOCK_STATUS) : rd (unlock_device now s) j = rd s j := by
  have h : rd (unlock_device now s) j =
      rd (wr (wr s REG_LOCK_STATUS UNLOCKED) REG_STATUS
        (rd (wr s REG_LOCK_STATUS UNLOCKED) REG_STATUS &&& bnot8 STATUS_LOCKED)) j := rfl
  rw [h, rd_wr_ne _ _ _ _ (Ne.symm hj), rd_wr_ne _ _ _ _ (Ne.symm hj')]

/-- C19. A data-phase write of `v` while the address pointer is at a writable
register (`CTRL1`, `CONFIG`, `PADDING`, `UNLOCK`) leaves that register holding
`v` and every other writable register unchanged, whatever the lock state and
whether or not a measurement start or an unlock is performed. -/
theorem writable_write_stores (s : State) (now : Int) (v : Nat) (hwf : s.WF)
    (hdata : s.reg_addr_received = true)
    (hreg : s.current_reg = REG_CTRL1 ∨ s.current_reg = REG_CONFIG ∨
      s.current_reg = REG_PADDING ∨ s.current_reg = REG_UNLOCK) :
    rd (target_write_received now v s) s.current_reg = v ∧
    ∀ j, (j = REG_CTRL1 ∨ j = REG_CONFIG ∨ j = REG_PADDING ∨ j = REG_UNLOCK) →
      j ≠ s.current_reg → rd (target_write_received now v s) j = rd s j := by
  have hlen : s.registers.length = 12 := hwf.1
  have hreg' : s.current_reg = 1 ∨ s.current_reg = 7 ∨ s.current_reg = 8 ∨ s.current_reg = 10 :=
    hreg
  have hro : reg_readonly.getD s.current_reg false = false := by
    rcases hreg with h | h | h | h <;> rw [h] <;> decide
  have hst : ∀ j, (j = REG_CTRL1 ∨ j = REG_CONFIG ∨ j = REG_PADDING ∨ j = REG_UNLOCK) →
      j ≠ REG_STATUS ∧ j ≠ REG_LOCK_STATUS := by
    intro j hj
    have hj' : j = 1 ∨ j = 7 ∨ j = 8 ∨ j = 10 := hj
    constructor
    · show j ≠ 2; omega
    · show j ≠ 11; omega
  have hcur := hst s.current_reg hreg
  have hw : rd (wr s s.current_reg v) s.current_reg = v := rd_wr_eq s _ v (by omega)
  have hwn : ∀ j, j ≠ s.current_reg → rd (wr s s.current_reg v) j = rd s j :=
    fun j hj => rd_wr_ne s _ j v (Ne.symm hj)
  -- the state after the write differs from one of three states in `current_reg` only
  have key : ∀ t : State,
      (∀ j, j ≠ REG_STATUS → j ≠ REG_LOCK_STATUS → rd t j = rd (wr s s.current_reg v) j) →
      rd t s.current_reg = v ∧
      ∀ j, (j = REG_CTRL1 ∨ j = REG_CONFIG ∨ j = REG_PADDING ∨ j = REG_UNLOCK) →
        j ≠ s.current_reg → rd t j = rd s j := by
    intro t ht
    refine ⟨(ht _ hcur.1 hcur.2).trans hw, fun j hj hne => ?_⟩
    rw [ht j (hst j hj).1 (hst j hj).2, hwn j hne]
  by_cases h1 : s.current_reg = REG_CTRL1 ∧ v &&& 0x01 ≠ 0
  · rw [twr_ctrl1_start now v s hdata h1.1 h1.2]
    apply key
    intro j hj _
    rw [h1.1]
    exact (rd_congr rfl j).trans (rd_start_measurement_ne now _ j hj)
  · by_cases h2 : s.current_reg = REG_UNLOCK
    · by_cases h3 : v = rd s REG_SESSION_CODE
      · rw [twr_unlock_ok now v s hdata h2 h3]
        apply key
        intro j hj hj'
        rw [h2]
        exact (rd_congr rfl j).trans (rd_unlock_device_ne now _ j hj hj')
      · rw [twr_unlock_bad now v s hdata h2 h3]
        apply key
        intro j _ _
        rw [h2]
        exact rd_congr rfl j
    · rw [twr_plain now v s hdata hro h1 h2]
      apply key
      intro j _ _
      exact rd_congr rfl j

/-- A write of `0x01` to `CTRL1` while locked (sample state `at_ctrl1_locked`):
the start is rejected, the byte is stored. -/
theorem writable_write_stores_witness :
    at_ctrl1_locked.WF ∧ at_ctrl1_locked.reg_addr_received = true ∧
    at_ctrl1_locked.current_reg = REG_CTRL1 ∧
    rd (target_write_received 20 0x01 at_ctrl1_locked) at_ctrl1_locked.current_reg = 0x01 :=
  ⟨by decide, rfl, rfl,
    (writable_write_stores at_ctrl1_locked 20 0x01 (by decide) rfl (Or.inl rfl)).1⟩

/-! ## Idempotence of locking and unlocking -/

theorem wr_eq_self (s : State) (i a : Nat) (h : i < s.registers.length → rd s i = a) :
    wr s i a = s := by
  obtain ⟨l, cr, ar, mip, mst, ut⟩ := s
  have : l.set i a = l := by
    apply List.ext_getElem?
    intro j
    rw [List.getElem?_set]
    split_ifs with h1 h2
    · subst h1
      have h' : l.getD i 0 = a := h h2
      rw [List.getD_eq_getElem?_getD, List.getElem?_eq_getElem h2] at h'
      rw [List.getElem?_eq_getElem h2, ← h']
      rfl
    · subst h1
      exact (List.getElem?_eq_none (by simpa using h2)).symm
    · rfl
  simp only [wr, this]

theorem mask_unlock_idem (x : Nat) :
    (x &&& bnot8 STATUS_LOCKED) &&& bnot8 STATUS_LOCKED = x &&& bnot8 STATUS_LOCKED := by
  rw [Nat.and_assoc, Nat.and_self]

theorem mask_clear_ready_idem (x : Nat) :
    (x &&& bnot8 STATUS_DATA_READY) &&& bnot8 STATUS_DATA_READY =
      x &&& bnot8 STATUS_DATA_READY := by
  rw [Nat.and_assoc, Nat.and_self]

theorem mask_lock_absorb (x : Nat) :
    ((x ||| STATUS_LOCKED) &&& bnot8 STATUS_DATA_READY) ||| STATUS_LOCKED =
      (x ||| STATUS_LOCKED) &&& bnot8 STATUS_DATA_READY := by
  have h2 : STATUS_LOCKED = 2 ^ 1 := rfl
  have hm : bnot8 STATUS_DATA_READY = 254 := rfl
  apply Nat.eq_of_testBit_eq
  intro i
  rw [h2, hm]
  simp only [Nat.testBit_and, Nat.testBit_or]
  by_cases hi : i = 1
  · subst hi
    have : (254 : Nat).testBit 1 = true := by decide
    simp [Nat.testBit_two_pow_self, this]
  · rw [Nat.testBit_two_pow_of_ne (Ne.symm hi)]
    simp

theorem unlock_device_idem (s : State) (now : Int) :
    unlock_device now (unlock_device now s) = unlock_device now s := by
  have e : ∀ t : State, unlock_device now t =
      { wr (wr t REG_LOCK_STATUS UNLOCKED) REG_STATUS (rd t REG_STATUS &&& bnot8 STATUS_LOCKED)
        with unlock_time_ms := now } := by
    intro t
    have : rd (wr t REG_LOCK_STATUS UNLOCKED) REG_STATUS = rd t REG_STATUS :=
      rd_wr_ne _ _ _ _ (by decide)
    unfold unlock_device
    simp only [this]
  have hrd : ∀ j, rd (unlock_device now s) j =
      rd (wr (wr s REG_LOCK_STATUS UNLOCKED) REG_STATUS
        (rd s REG_STATUS &&& bnot8 STATUS_LOCKED)) j := by
    intro j; rw [e s]; rfl
  have hlen : (unlock_device now s).registers.length = s.registers.length := by
    rw [e s]; show (wr (wr s _ _) _ _).registers.length = _
    rw [wr_length, wr_length]
  have h11 : wr (unlock_device now s) REG_LOCK_STATUS UNLOCKED = unlock_device now s := by
    apply wr_eq_self
    intro h
    rw [hrd, rd_wr_ne _ _ _ _ (by decide)]
    exact rd_wr_eq _ _ _ (hlen ▸ h)
  have h2 : wr (unlock_device now s) REG_STATUS
      (rd (unlock_device now s) REG_STATUS &&& bnot8 STATUS_LOCKED) = unlock_device now s := by
    apply wr_eq_self
    intro h
    have : rd (unlock_device now s) REG_STATUS = rd s REG_STATUS &&& bnot8 STATUS_LOCKED := by
      rw [hrd]
      exact rd_wr_eq _ _ _ (by rw [wr_length]; exact hlen ▸ h)
    rw [this, mask_unlock_idem]
  rw [e (unlock_device now s), h11, h2]
  rw [e s]


theorem lock_device_idem (s : State) : lock_device (lock_device s) = lock_device s := by
  have e : ∀ t : State, lock_device t =
      { wr (wr (wr (wr (wr (wr (wr t REG_LOCK_STATUS LOCKED) REG_STATUS
          (rd (wr t REG_LOCK_STATUS LOCKED) REG_STATUS ||| STATUS_LOCKED)) REG_STATUS
          (rd (wr (wr t REG_LOCK_STATUS LOCKED) REG_STATUS
            (rd (wr t REG_LOCK_STATUS LOCKED) REG_STATUS ||| STATUS_LOCKED)) REG_STATUS &&&
              bnot8 STATUS_DATA_READY)) REG_TEMP_L 0xFF) REG_TEMP_H 0xFF) REG_HUMID_L 0xFF)
          REG_HUMID_H 0xFF with measurement_in_progress := false } := fun _ => rfl
  obtain ⟨u, hu⟩ : ∃ u, u = lock_device s := ⟨_, rfl⟩
  have hrd : ∀ j, rd u j = rd (wr (wr (wr (wr (wr (wr (wr s REG_LOCK_STATUS LOCKED) REG_STATUS
          (rd (wr s REG_LOCK_STATUS LOCKED) REG_STATUS ||| STATUS_LOCKED)) REG_STATUS
          (rd (wr (wr s REG_LOCK_STATUS LOCKED) REG_STATUS
            (rd (wr s REG_LOCK_STATUS LOCKED) REG_STATUS ||| STATUS_LOCKED)) REG_STATUS &&&
              bnot8 STATUS_DATA_READY)) REG_TEMP_L 0xFF) REG_TEMP_H 0xFF) REG_HUMID_L 0xFF)
          REG_HUMID_H 0xFF) j := by
    intro j; rw [hu]; rfl
  have hlen : u.registers.length = s.registers.length := by
    rw [hu, e s]
    show (wr _ _ _).registers.length = _
    simp only [wr_length]
  have hm : u.measurement_in_progress = false := by rw [hu]; rfl
  have h11 : wr u REG_LOCK_STATUS LOCKED = u := by
    apply wr_eq_self
    intro h
    rw [hrd, rd_wr_ne _ _ _ _ (by decide), rd_wr_ne _ _ _ _ (by decide),
      rd_wr_ne _ _ _ _ (by decide), rd_wr_ne _ _ _ _ (by decide),
      rd_wr_ne _ _ _ _ (by decide), rd_wr_ne _ _ _ _ (by decide)]
    exact rd_wr_eq _ _ _ (hlen ▸ h)
  have hst : REG_STATUS < u.registers.length → ∃ x,
      rd u REG_STATUS = (x ||| STATUS_LOCKED) &&& bnot8 STATUS_DATA_READY := by
    intro h
    refine ⟨rd (wr s REG_LOCK_STATUS LOCKED) REG_STATUS, ?_⟩
    rw [hrd, rd_wr_ne _ _ _ _ (by decide), rd_wr_ne _ _ _ _ (by decide),
      rd_wr_ne _ _ _ _ (by decide), rd_wr_ne _ _ _ _ (by decide)]
    have hl : REG_STATUS < s.registers.length := hlen ▸ h
    rw [rd_wr_eq _ _ _ (by simp only [wr_length]; exact hl)]
    rw [rd_wr_eq _ _ _ (by simp only [wr_length]; exact hl)]
  have hA : wr u REG_STATUS (rd u REG_STATUS ||| STATUS_LOCKED) = u := by
    apply wr_eq_self
    intro h
    obtain ⟨x, hx⟩ := hst h
    rw [hx, mask_lock_absorb]
  have hB : wr u REG_STATUS (rd u REG_STATUS &&& bnot8 STATUS_DATA_READY) = u := by
    apply wr_eq_self
    intro h
    obtain ⟨x, hx⟩ := hst h
    rw [hx, mask_clear_ready_idem]
  have h3 : wr u REG_TEMP_L 0xFF = u := by
    apply wr_eq_self
    intro h
    rw [hrd, rd_wr_ne _ _ _ _ (by decide), rd_wr_ne _ _ _ _ (by decide),
      rd_wr_ne _ _ _ _ (by decide)]
    exact rd_wr_eq _ _ _ (by simp only [wr_length]; exact hlen ▸ h)
  have h4 : wr u REG_TEMP_H 0xFF = u := by
    apply wr_eq_self
    intro h
    rw [hrd, rd_wr_ne _ _ _ _ (by decide), rd_wr_ne _ _ _ _ (by decide)]
    exact rd_wr_eq _ _ _ (by simp only [wr_length]; exact hlen ▸ h)
  have h6 : wr u REG_HUMID_L 0xFF = u := by
    apply wr_eq_self
    intro h
    rw [hrd, rd_wr_ne _ _ _ _ (by decide)]
    exact rd_wr_eq _ _ _ (by simp only [wr_length]; exact hlen ▸ h)
  have h5 : wr u REG_HUMID_H 0xFF = u := by
    apply wr_eq_self
    intro h
    rw [hrd]
    exact rd_wr_eq _ _ _ (by simp only [wr_length]; exact hlen ▸ h)
  rw [← hu, e u, h11, hA, hB, h3, h4, h6, h5]
  obtain ⟨l, cr, ar, mip, mst, ut⟩ := u
  simp only at hm
  rw [hm]

/-- C20. `lock_device` and `unlock_device` are idempotent: applied twice
(`unlock_device` at the same uptime `now`) they give the same state as applied
once. -/
theorem lock_unlock_idempotent (s : State) (now : Int) :
    lock_device (lock_device s) = lock_device s ∧
    unlock_device now (unlock_device now s) = unlock_device now s :=
  ⟨lock_device_idem s, unlock_device_idem s now⟩

end I2cSlave
